import Mathlib

/-!
The class template `oop_ptr`: an owning handle over a polymorphic object.

A shallow embedding of `src/oop_ptr.h`.

* Objects live in a heap indexed by addresses; address `0` is `nullptr`.
* Every `oop_ptr<T>` instance is itself an object with an address; the state
  maps the address of each constructed handle to its value (the `resource`
  field).  Member functions take the address `this`, so that the tests
  `this != &other` of the assignment operators can be expressed.
* The virtual member `oop_ptr_get_copy` (by default named `get_copy_ptr`) and
  the class hierarchy seen by `dynamic_cast` are supplied by the client
  program; they are the two fields of `Env`.
* Two ghost components of the state record how often `oop_ptr_get_copy` was
  invoked and which objects were destroyed by a delete-expression.
-/

namespace OopPtr

/-- Addresses of objects; `0` is the null pointer. -/
abbrev Ptr := Nat

/-- The null pointer. -/
def nullptr : Ptr := 0

/-- An object of a class hierarchy: its most-derived (runtime) class and the
values of its data members. -/
structure Obj where
  rtype : Nat
  fields : List Int
deriving DecidableEq, Repr

/-- The free store: the live object at every address, if there is one. -/
abbrev Heap := Ptr → Option Obj

/-- Heap with the cell at `p` replaced by `v`. -/
def Heap.set (hp : Heap) (p : Ptr) (v : Option Obj) : Heap :=
  fun x => if x = p then v else hp x

/-- The class `oop_ptr<T>`: its only data member is `T* resource`. -/
structure oop_ptr where
  resource : Ptr
deriving DecidableEq, Repr

/-- Program state: the free store, the constructed handles (by address), and
two ghost components: the number of invocations of `oop_ptr_get_copy` and the
log of objects destroyed by delete-expressions (most recent first). -/
structure State where
  heap : Heap
  handles : Nat → Option oop_ptr
  clones : Nat
  destroyed : List Ptr

/-- What the client program supplies: the virtual member function
`oop_ptr_get_copy` (`none` is a propagated `std::bad_alloc`, otherwise the
returned pointer and the free store after the call) and the class hierarchy
(`derives d u`: class `d` has the unambiguous public base class `u`). -/
structure Env where
  get_copy_ptr : Heap → Ptr → Option (Ptr × Heap)
  derives : Nat → Nat → Bool

/-- Result of running a piece of code: normal completion with a value, an
exception (`std::bad_alloc`) leaving the function with the state reached at
the throw point, or undefined behaviour. -/
inductive Outcome (α : Type) where
  | ok : α → Outcome α
  | bad_alloc : State → Outcome α
  | ub : Outcome α

/-- Sequencing: exceptions and undefined behaviour propagate. -/
def Outcome.bind {α β : Type} : Outcome α → (α → Outcome β) → Outcome β
  | .ok a, f => f a
  | .bad_alloc s, _ => .bad_alloc s
  | .ub, _ => .ub

/-- Assignment `this->resource = r` (also the member initialiser
`resource(r)` of a constructor running at address `this`). -/
def State.setResource (s : State) (this : Nat) (r : Ptr) : State :=
  { s with handles := fun h => if h = this then some ⟨r⟩ else s.handles h }

/-- End of the lifetime of the handle at address `this`. -/
def State.dropHandle (s : State) (this : Nat) : State :=
  { s with handles := fun h => if h = this then none else s.handles h }

/-- The delete-expression `delete p`: nothing for a null pointer, destroys a
live object, undefined on anything else. -/
def delete_expr (s : State) (p : Ptr) : Outcome State :=
  if p = nullptr then .ok s
  else match s.heap p with
    | none => .ub
    | some _ => .ok { s with heap := s.heap.set p none, destroyed := p :: s.destroyed }

/-- The virtual call `p->oop_ptr_get_copy()`: undefined unless `p` points to
a live object. -/
def call_get_copy (env : Env) (s : State) (p : Ptr) : Outcome (Ptr × State) :=
  if p = nullptr then .ub
  else match s.heap p with
    | none => .ub
    | some _ =>
      match env.get_copy_ptr s.heap p with
      | none => .bad_alloc { s with clones := s.clones + 1 }
      | some (q, hp) => .ok (q, { s with heap := hp, clones := s.clones + 1 })

/-- The test made by `dynamic_cast<U*>`: the runtime class is `U` or has `U`
as a base class. -/
def Env.castable (env : Env) (d u : Nat) : Bool :=
  d = u || env.derives d u

/-- The expression `dynamic_cast<U*>(p)`. -/
def dynamic_cast (env : Env) (s : State) (U : Nat) (p : Ptr) : Outcome Ptr :=
  if p = nullptr then .ok nullptr
  else match s.heap p with
    | none => .ub
    | some o => .ok (if env.castable o.rtype U then p else nullptr)

/-- `oop_ptr<T>::oop_ptr()`. -/
def oop_ptr.ctor_default (s : State) (this : Nat) : State :=
  s.setResource this nullptr

/-- `oop_ptr<T>::oop_ptr(const T& obj)`; `obj` is the address of the referenced object. -/
def oop_ptr.ctor_obj (env : Env) (s : State) (this : Nat) (obj : Ptr) : Outcome State :=
  (call_get_copy env s obj).bind fun (q, s1) => .ok (s1.setResource this q)

/-- `oop_ptr<T>::oop_ptr(T* ptr)`. -/
def oop_ptr.ctor_ptr (s : State) (this : Nat) (ptr : Ptr) : State :=
  s.setResource this ptr

/-- `oop_ptr<T>::oop_ptr(const oop_ptr<T>& other)`. -/
def oop_ptr.ctor_copy (env : Env) (s : State) (this other : Nat) : Outcome State :=
  match s.handles other with
  | none => .ub
  | some o =>
    (call_get_copy env s o.resource).bind fun (q, s1) => .ok (s1.setResource this q)

/-- `oop_ptr<T>::oop_ptr(oop_ptr<T>&& other) noexcept`. -/
def oop_ptr.ctor_move (s : State) (this other : Nat) : Outcome State :=
  match s.handles other with
  | none => .ub
  | some o => .ok ((s.setResource this o.resource).setResource other nullptr)

/-- `oop_ptr<T>::operator=(const oop_ptr<T>& other)`. -/
def oop_ptr.assign_copy (env : Env) (s : State) (this other : Nat) : Outcome State :=
  if this ≠ other then
    match s.handles this with
    | none => .ub
    | some t =>
      (delete_expr s t.resource).bind fun s1 =>
        match s1.handles other with
        | none => .ub
        | some o =>
          (call_get_copy env s1 o.resource).bind fun (q, s2) =>
            .ok (s2.setResource this q)
  else .ok s

/-- `oop_ptr<T>::operator=(oop_ptr<T>&& other) noexcept`. -/
def oop_ptr.assign_move (s : State) (this other : Nat) : Outcome State :=
  if this ≠ other then
    match s.handles this with
    | none => .ub
    | some t =>
      (delete_expr s t.resource).bind fun s1 =>
        match s1.handles other with
        | none => .ub
        | some o => .ok ((s1.setResource this o.resource).setResource other nullptr)
  else .ok s

/-- `oop_ptr<T>::operator bool() const noexcept`. -/
def oop_ptr.operator_bool (s : State) (this : Nat) : Outcome (Bool × State) :=
  match s.handles this with
  | none => .ub
  | some t => .ok (decide (t.resource ≠ nullptr), s)

/-- `T* oop_ptr<T>::operator->() const`. -/
def oop_ptr.operator_arrow (s : State) (this : Nat) : Outcome (Ptr × State) :=
  match s.handles this with
  | none => .ub
  | some t => .ok (t.resource, s)

/-- `T& oop_ptr<T>::operator*() const`: the reference is the address of the
object; binding it is undefined unless the resource points to a live object. -/
def oop_ptr.operator_star (s : State) (this : Nat) : Outcome (Ptr × State) :=
  match s.handles this with
  | none => .ub
  | some t =>
    if t.resource = nullptr then .ub
    else match s.heap t.resource with
      | none => .ub
      | some _ => .ok (t.resource, s)

/-- `T* oop_ptr<T>::get() const`. -/
def oop_ptr.get (s : State) (this : Nat) : Outcome (Ptr × State) :=
  match s.handles this with
  | none => .ub
  | some t => .ok (t.resource, s)

/-- `T* oop_ptr<T>::release()`. -/
def oop_ptr.release (s : State) (this : Nat) : Outcome (Ptr × State) :=
  (oop_ptr.get s this).bind fun (out, s1) =>
    .ok (out, s1.setResource this nullptr)

/-- `template <typename U> U* oop_ptr<T>::get() const`. -/
def oop_ptr.get_as (env : Env) (s : State) (this : Nat) (U : Nat) : Outcome (Ptr × State) :=
  match s.handles this with
  | none => .ub
  | some t =>
    if t.resource = nullptr then .ok (nullptr, s)
    else (dynamic_cast env s U t.resource).bind fun out =>
      if out ≠ nullptr then .ok (out, s) else .ok (nullptr, s)

/-- `template <typename U> bool oop_ptr<T>::gettable() const`. -/
def oop_ptr.gettable (env : Env) (s : State) (this : Nat) (U : Nat) : Outcome (Bool × State) :=
  (oop_ptr.get_as env s this U).bind fun (out, s1) => .ok (decide (out ≠ nullptr), s1)

/-- `template <typename U> U* oop_ptr<T>::release()`. -/
def oop_ptr.release_as (env : Env) (s : State) (this : Nat) (U : Nat) : Outcome (Ptr × State) :=
  (oop_ptr.get_as env s this U).bind fun (out, s1) =>
    .ok (out, s1.setResource this nullptr)

/-- `oop_ptr<T>::~oop_ptr()`; afterwards the handle itself no longer exists. -/
def oop_ptr.dtor (s : State) (this : Nat) : Outcome State :=
  match s.handles this with
  | none => .ub
  | some t =>
    (if t.resource ≠ nullptr then delete_expr s t.resource else .ok s).bind fun s1 =>
      .ok (s1.dropHandle this)

/-- `static oop_ptr oop_ptr<T>::copy(const T* ptr)` with
`OOP_PTR_PTR_MOVE_CONSTRUCTOR` defined and `OOP_PTR_PTR_COPY_CONSTRUCTOR` not:
`return oop_ptr(ptr->oop_ptr_get_copy());`.  The returned handle is
constructed at address `dst`. -/
def oop_ptr.copy_ptr (env : Env) (s : State) (dst : Nat) (ptr : Ptr) : Outcome State :=
  (call_get_copy env s ptr).bind fun (q, s1) => .ok (oop_ptr.ctor_ptr s1 dst q)

/-- `static oop_ptr oop_ptr<T>::copy(const T& obj)`: `return copy(&obj);`. -/
def oop_ptr.copy_obj (env : Env) (s : State) (dst : Nat) (obj : Ptr) : Outcome State :=
  oop_ptr.copy_ptr env s dst obj

/-- `static oop_ptr oop_ptr<T>::move(T* ptr)`: `return oop_ptr(ptr);`. -/
def oop_ptr.move (s : State) (dst : Nat) (ptr : Ptr) : State :=
  oop_ptr.ctor_ptr s dst ptr

/-! ## Client-side code: clone generation, writes through a handle -/

/-- The macro `oop_ptr_define(b, c)`: `b* c::oop_ptr_get_copy() const { return new c(*this); }`
with the implicit (member-wise) copy constructor of `c`.  `operator_new` is
the allocation function of the C++ runtime: `none` is `std::bad_alloc`. -/
def oop_ptr_define (operator_new : Heap → Option Ptr) (c : Nat) (hp : Heap) (this : Ptr) :
    Option (Ptr × Heap) :=
  match operator_new hp with
  | none => none
  | some q =>
    match hp this with
    | none => none
    | some o => some (q, hp.set q (some { rtype := c, fields := o.fields }))

/-- Virtual dispatch of `oop_ptr_get_copy` in a hierarchy where every class
carries its own `oop_ptr_define`: the final overrider is the one of the
runtime class of the receiver. -/
def virtual_get_copy (operator_new : Heap → Option Ptr) (hp : Heap) (this : Ptr) :
    Option (Ptr × Heap) :=
  match hp this with
  | none => none
  | some o => oop_ptr_define operator_new o.rtype hp this

/-- An allocation function over a free store with the addresses `1 .. size`:
the lowest free address, `std::bad_alloc` when there is none. -/
def first_fit (size : Nat) (hp : Heap) : Option Ptr :=
  ((List.range size).map (fun i => i + 1)).find? (fun q => (hp q).isNone)

/-- The Clone Capability contract on `oop_ptr_get_copy`: whenever the call on
a live object returns, the result is a newly allocated object (non-null
address that held no live object) of the receiver's runtime class, and nothing
else in the free store changes. -/
def CloneCapability (env : Env) : Prop :=
  ∀ (hp : Heap) (p : Ptr) (o : Obj) (q : Ptr) (hp' : Heap),
    hp p = some o → env.get_copy_ptr hp p = some (q, hp') →
      q ≠ nullptr ∧ hp q = none ∧ ∃ o', o'.rtype = o.rtype ∧ hp' = hp.set q (some o')

/-- Client assignment to the data members of the object at `p`. -/
def write_obj (s : State) (p : Ptr) (v : List Int) : Outcome State :=
  if p = nullptr then .ub
  else match s.heap p with
    | none => .ub
    | some o => .ok { s with heap := s.heap.set p (some { o with fields := v }) }

/-- Client write through a handle: `h->fields = v`. -/
def write_through (s : State) (this : Nat) (v : List Int) : Outcome State :=
  (oop_ptr.operator_arrow s this).bind fun (p, s1) => write_obj s1 p v

/-! ## Sequences of public operations -/

/-- Forget the returned value of a member function. -/
def Outcome.dropValue {α : Type} (r : Outcome (α × State)) : Outcome State :=
  r.bind fun (_, s) => .ok s

/-- The state in which a run ended, when its behaviour is defined. -/
def Outcome.finalState : Outcome State → Option State
  | .ok s => some s
  | .bad_alloc s => some s
  | .ub => none

/-- The public operations of `oop_ptr<T>`, with their arguments. -/
inductive Op where
  | ctor_default (this : Nat)
  | ctor_obj (this : Nat) (obj : Ptr)
  | ctor_ptr (this : Nat) (ptr : Ptr)
  | ctor_copy (this other : Nat)
  | ctor_move (this other : Nat)
  | assign_copy (this other : Nat)
  | assign_move (this other : Nat)
  | operator_bool (this : Nat)
  | operator_arrow (this : Nat)
  | operator_star (this : Nat)
  | get (this : Nat)
  | get_as (this U : Nat)
  | gettable (this U : Nat)
  | release (this : Nat)
  | release_as (this U : Nat)
  | dtor (this : Nat)
  | copy_obj (dst : Nat) (obj : Ptr)
  | copy_ptr (dst : Nat) (ptr : Ptr)
  | move (dst : Nat) (ptr : Ptr)
deriving DecidableEq, Repr

/-- Effect of one public operation on the state. -/
def step (env : Env) (s : State) : Op → Outcome State
  | .ctor_default this => .ok (oop_ptr.ctor_default s this)
  | .ctor_obj this obj => oop_ptr.ctor_obj env s this obj
  | .ctor_ptr this ptr => .ok (oop_ptr.ctor_ptr s this ptr)
  | .ctor_copy this other => oop_ptr.ctor_copy env s this other
  | .ctor_move this other => oop_ptr.ctor_move s this other
  | .assign_copy this other => oop_ptr.assign_copy env s this other
  | .assign_move this other => oop_ptr.assign_move s this other
  | .operator_bool this => (oop_ptr.operator_bool s this).dropValue
  | .operator_arrow this => (oop_ptr.operator_arrow s this).dropValue
  | .operator_star this => (oop_ptr.operator_star s this).dropValue
  | .get this => (oop_ptr.get s this).dropValue
  | .get_as this U => (oop_ptr.get_as env s this U).dropValue
  | .gettable this U => (oop_ptr.gettable env s this U).dropValue
  | .release this => (oop_ptr.release s this).dropValue
  | .release_as this U => (oop_ptr.release_as env s this U).dropValue
  | .dtor this => oop_ptr.dtor s this
  | .copy_obj dst obj => oop_ptr.copy_obj env s dst obj
  | .copy_ptr dst ptr => oop_ptr.copy_ptr env s dst ptr
  | .move dst ptr => .ok (oop_ptr.move s dst ptr)

/-- A sequence of public operations, one after the other. -/
def run (env : Env) : State → List Op → Outcome State
  | s, [] => .ok s
  | s, op :: ops => (step env s op).bind fun s1 => run env s1 ops

/-- Every constructed handle is empty. -/
def AllEmpty (s : State) : Prop :=
  ∀ h t, s.handles h = some t → t.resource = nullptr

/-- No two distinct handles hold the same non-null resource. -/
def Exclusive (s : State) : Prop :=
  ∀ h1 h2 t1 t2, h1 ≠ h2 → s.handles h1 = some t1 → s.handles h2 = some t2 →
    t1.resource = t2.resource → t1.resource = nullptr

/-- Every non-null resource points to a live object. -/
def OwnedLive (s : State) : Prop :=
  ∀ h t, s.handles h = some t → t.resource ≠ nullptr → ∃ o, s.heap t.resource = some o

/-- The ownership invariant: exclusive ownership of live objects. -/
def Inv (s : State) : Prop :=
  Exclusive s ∧ OwnedLive s

/-- The ownership invariant on all handles but the one at address `h`, whose
resource is about to be overwritten. -/
def InvExcept (s : State) (h : Nat) : Prop :=
  (∀ h1 h2 t1 t2, h1 ≠ h → h2 ≠ h → h1 ≠ h2 → s.handles h1 = some t1 →
      s.handles h2 = some t2 → t1.resource = t2.resource → t1.resource = nullptr) ∧
  (∀ k t, k ≠ h → s.handles k = some t → t.resource ≠ nullptr →
      ∃ o, s.heap t.resource = some o)

/-- The raw pointer `p` is null, or points to a live object held by no handle. -/
def Unowned (s : State) (p : Ptr) : Prop :=
  p = nullptr ∨ ((∃ o, s.heap p = some o) ∧ ∀ h t, s.handles h = some t → t.resource ≠ p)

/-- The raw pointer given to a transfer construction is unowned; no
condition on the other operations. -/
def Op.transferOk (s : State) : Op → Prop
  | .ctor_ptr _ ptr => Unowned s ptr
  | .move _ ptr => Unowned s ptr
  | _ => True

/-- Along the run of `ops` from `s`, every transfer construction receives an
unowned pointer. -/
def TransfersOk (env : Env) : State → List Op → Prop
  | _, [] => True
  | s, op :: ops => op.transferOk s ∧ ∀ s1, step env s op = .ok s1 → TransfersOk env s1 ops

/-- Classes `1` (base), `2` (derived from `1`) and `3` (unrelated), clones
generated by `oop_ptr_define`, sixteen cells of free store. -/
def demoEnv : Env :=
  { get_copy_ptr := virtual_get_copy (first_fit 16)
    derives := fun d u => d == 2 && u == 1 }

/-- The same program with an exhausted free store: every allocation fails. -/
def noMemEnv : Env :=
  { get_copy_ptr := virtual_get_copy (first_fit 0)
    derives := fun d u => d == 2 && u == 1 }

/-- Two live objects: a derived one at address `5`, a base one at `6`. -/
def demoHeap : Heap :=
  fun p => if p = 5 then some ⟨2, [7]⟩ else if p = 6 then some ⟨1, [3]⟩ else none

/-- Handle `1` owns the object at `5`, handle `2` the object at `6`, handle
`3` is empty. -/
def demoState : State :=
  { heap := demoHeap
    handles := fun h =>
      if h = 1 then some ⟨5⟩ else if h = 2 then some ⟨6⟩ else if h = 3 then some ⟨0⟩ else none
    clones := 0
    destroyed := [] }

/-- The state `demoState` after copy-constructing a handle at address `4`
from handle `1`: the clone lives at address `1`. -/
def demoCopy : State :=
  { heap := demoHeap.set 1 (some ⟨2, [7]⟩)
    handles := fun h => if h = 4 then some ⟨1⟩ else demoState.handles h
    clones := 1
    destroyed := [] }

/-- The state `demoState` after move-constructing a handle at address `4`
from handle `1`. -/
def demoMoved : State :=
  (demoState.setResource 4 5).setResource 1 nullptr

/-- The two objects of `demoHeap`, and no handle yet. -/
def startState : State :=
  { heap := demoHeap, handles := fun _ => none, clones := 0, destroyed := [] }

/-- `const oop_ptr<T> oop_ptr<T>::null = oop_ptr();`: the static initialiser,
constructing the constant at address `addr`. -/
def oop_ptr.null (s : State) (addr : Nat) : State :=
  oop_ptr.ctor_default s addr

/-! ## Basic facts about the state -/

@[simp] theorem Heap.set_same (hp : Heap) (p : Ptr) (v : Option Obj) :
    hp.set p v p = v := by
  simp [Heap.set]

theorem Heap.set_other (hp : Heap) (p x : Ptr) (v : Option Obj) (h : x ≠ p) :
    hp.set p v x = hp x := by
  simp [Heap.set, h]

@[simp] theorem State.setResource_heap (s : State) (this : Nat) (r : Ptr) :
    (s.setResource this r).heap = s.heap := rfl

@[simp] theorem State.setResource_clones (s : State) (this : Nat) (r : Ptr) :
    (s.setResource this r).clones = s.clones := rfl

@[simp] theorem State.setResource_destroyed (s : State) (this : Nat) (r : Ptr) :
    (s.setResource this r).destroyed = s.destroyed := rfl

@[simp] theorem State.setResource_same (s : State) (this : Nat) (r : Ptr) :
    (s.setResource this r).handles this = some ⟨r⟩ := by
  simp [State.setResource]

theorem State.setResource_other (s : State) (this h : Nat) (r : Ptr) (hne : h ≠ this) :
    (s.setResource this r).handles h = s.handles h := by
  simp [State.setResource, hne]

/-! ## Move construction -/

/-- C1: move construction of `h2` from a handle `h1` holding `p` (null or
not) completes, `h2.get()` is `p` itself, `h1` tests false and its `get()` is
null, and no object is created, destroyed or cloned. -/
theorem ctor_move_transfers_identity (s : State) (h1 h2 : Nat) (p : Ptr)
    (hsrc : s.handles h1 = some ⟨p⟩) (hne : h2 ≠ h1) :
    ∃ s', oop_ptr.ctor_move s h2 h1 = .ok s' ∧
      oop_ptr.get s' h2 = .ok (p, s') ∧
      oop_ptr.operator_bool s' h1 = .ok (false, s') ∧
      oop_ptr.get s' h1 = .ok (nullptr, s') ∧
      s'.heap = s.heap ∧ s'.destroyed = s.destroyed ∧ s'.clones = s.clones := by
  refine ⟨(s.setResource h2 p).setResource h1 nullptr, ?_, ?_, ?_, ?_, rfl, rfl, rfl⟩
  · simp [oop_ptr.ctor_move, hsrc]
  · have h : ((s.setResource h2 p).setResource h1 nullptr).handles h2 = some ⟨p⟩ := by
      rw [State.setResource_other _ _ _ _ hne, State.setResource_same]
    simp [oop_ptr.get, h]
  · simp [oop_ptr.operator_bool]
  · simp [oop_ptr.get]

/-- Instance of C1 on `demoState`: handle `1` (holding the object at `5`) is
moved into a new handle at address `4`. -/
theorem ctor_move_transfers_identity_witness :
    ∃ s', oop_ptr.ctor_move demoState 4 1 = .ok s' ∧
      oop_ptr.get s' 4 = .ok (5, s') ∧
      oop_ptr.operator_bool s' 1 = .ok (false, s') ∧
      oop_ptr.get s' 1 = .ok (nullptr, s') ∧
      s'.heap = demoState.heap ∧ s'.destroyed = demoState.destroyed ∧
      s'.clones = demoState.clones :=
  ctor_move_transfers_identity demoState 1 4 5 rfl (by decide)

/-! ## Self-assignment -/

/-- C6: copy-assigning and move-assigning a handle to itself both complete
and return the state unchanged: same resource, same free store, nothing
destroyed, nothing cloned. -/
theorem self_assignment_noop (env : Env) (s : State) (h : Nat) :
    oop_ptr.assign_copy env s h h = .ok s ∧ oop_ptr.assign_move s h h = .ok s := by
  constructor
  · simp [oop_ptr.assign_copy]
  · simp [oop_ptr.assign_move]

/-! ## release and the destructor -/

/-- C7: `release()` on a handle holding `p` returns `p`, leaves the handle
empty and the free store untouched (the object at `p` stays live, nothing is
destroyed); the destructor run afterwards completes without destroying any
object. -/
theorem release_hands_out (s : State) (h : Nat) (p : Ptr)
    (hh : s.handles h = some ⟨p⟩) :
    ∃ s1, oop_ptr.release s h = .ok (p, s1) ∧
      s1.handles h = some ⟨nullptr⟩ ∧ s1.heap = s.heap ∧ s1.destroyed = s.destroyed ∧
      ∃ s2, oop_ptr.dtor s1 h = .ok s2 ∧ s2.heap = s.heap ∧ s2.destroyed = s.destroyed := by
  refine ⟨s.setResource h nullptr, ?_, by simp, rfl, rfl,
    (s.setResource h nullptr).dropHandle h, ?_, rfl, rfl⟩
  · simp [oop_ptr.release, oop_ptr.get, hh, Outcome.bind]
  · simp [oop_ptr.dtor, Outcome.bind]

/-- Instance of C7: releasing handle `1` of `demoState` returns the object at
`5`, still live. -/
theorem release_hands_out_witness :
    ∃ s1, oop_ptr.release demoState 1 = .ok (5, s1) ∧
      s1.handles 1 = some ⟨nullptr⟩ ∧ s1.heap = demoState.heap ∧
      s1.destroyed = demoState.destroyed ∧
      ∃ s2, oop_ptr.dtor s1 1 = .ok s2 ∧ s2.heap = demoState.heap ∧
        s2.destroyed = demoState.destroyed :=
  release_hands_out demoState 1 5 rfl

/-! ## Narrowing -/

/-- The narrowing query on a handle whose resource is null or live. -/
theorem get_as_eq (env : Env) (s : State) (h U : Nat) (t : oop_ptr)
    (hh : s.handles h = some t)
    (hlive : t.resource = nullptr ∨ ∃ o, s.heap t.resource = some o) :
    oop_ptr.get_as env s h U =
      .ok ((match s.heap t.resource with
            | some o => if t.resource ≠ nullptr ∧ env.castable o.rtype U then t.resource
                        else nullptr
            | none => nullptr), s) := by
  unfold oop_ptr.get_as
  rw [hh]
  by_cases hn : t.resource = nullptr
  · simp only [hn, if_true]
    cases s.heap nullptr <;> simp
  · rcases hlive with h0 | ⟨o, ho⟩
    · exact absurd h0 hn
    · simp only [hn, if_false, dynamic_cast, ho, Outcome.bind]
      by_cases hc : env.castable o.rtype U = true
      · simp [hc, hn]
      · simp [hc]

/-- C8: on a handle whose resource is null or points to a live object,
`get<U>()` completes without changing the state; its result is non-null
exactly when the handle is non-empty and the runtime class of the owned object
is `U` or derives from `U`, in which case it is the pointer returned by
`get()`; `gettable<U>()` completes with the truth value of "the result of
`get<U>()` is non-null". -/
theorem narrowing_correct (env : Env) (s : State) (h U : Nat) (t : oop_ptr)
    (hh : s.handles h = some t)
    (hlive : t.resource = nullptr ∨ ∃ o, s.heap t.resource = some o) :
    ∃ out, oop_ptr.get_as env s h U = .ok (out, s) ∧
      (out ≠ nullptr ↔
        (t.resource ≠ nullptr ∧
          ∃ o, s.heap t.resource = some o ∧ (o.rtype = U ∨ env.derives o.rtype U = true))) ∧
      (out ≠ nullptr → oop_ptr.get s h = .ok (out, s)) ∧
      oop_ptr.gettable env s h U = .ok (decide (out ≠ nullptr), s) := by
  have key := get_as_eq env s h U t hh hlive
  refine ⟨_, key, ?_, ?_, ?_⟩
  · by_cases hn : t.resource = nullptr
    · cases hs : s.heap t.resource <;> simp [hn]
    · rcases hlive with h0 | ⟨o, ho⟩
      · exact absurd h0 hn
      · by_cases hc : env.castable o.rtype U = true
        · have hc' := hc
          simp only [Env.castable, Bool.or_eq_true, decide_eq_true_eq] at hc'
          simp [ho, hn, hc, hc']
        · have hc' := hc
          simp only [Env.castable, Bool.or_eq_true, decide_eq_true_eq] at hc'
          simp [ho, hn, hc, hc']
  · intro hout
    cases hs : s.heap t.resource with
    | none => simp [hs] at hout
    | some o =>
      simp only [hs] at hout ⊢
      by_cases hc : t.resource ≠ nullptr ∧ env.castable o.rtype U = true
      · simp [hc, oop_ptr.get, hh]
      · simp [hc] at hout
  · simp [oop_ptr.gettable, key, Outcome.bind]

/-- Instance of C8: handle `1` of `demoState` owns an object of class `2`
(derived from `1`); narrowing to class `1`. -/
theorem narrowing_correct_witness :
    ∃ out, oop_ptr.get_as demoEnv demoState 1 1 = .ok (out, demoState) ∧
      (out ≠ nullptr ↔
        ((⟨5⟩ : oop_ptr).resource ≠ nullptr ∧
          ∃ o, demoState.heap (⟨5⟩ : oop_ptr).resource = some o ∧
            (o.rtype = 1 ∨ demoEnv.derives o.rtype 1 = true))) ∧
      (out ≠ nullptr → oop_ptr.get demoState 1 = .ok (out, demoState)) ∧
      oop_ptr.gettable demoEnv demoState 1 1 = .ok (decide (out ≠ nullptr), demoState) :=
  narrowing_correct demoEnv demoState 1 1 ⟨5⟩ rfl (Or.inr ⟨⟨2, [7]⟩, rfl⟩)

/-- C9: on a handle whose resource is null or points to a live object,
`release<U>()` completes and returns what `get<U>()` returns in the state
before the call; afterwards the handle is empty and the free store is
untouched.  When the handle was non-empty and narrowing failed (null result),
the formerly owned object is still live, and neither the handle nor the
returned pointer refers to it. -/
theorem release_as_always_empties (env : Env) (s : State) (h U : Nat) (t : oop_ptr)
    (hh : s.handles h = some t)
    (hlive : t.resource = nullptr ∨ ∃ o, s.heap t.resource = some o) :
    ∃ out s1, oop_ptr.get_as env s h U = .ok (out, s) ∧
      oop_ptr.release_as env s h U = .ok (out, s1) ∧
      oop_ptr.operator_bool s1 h = .ok (false, s1) ∧
      s1.handles h = some ⟨nullptr⟩ ∧ s1.heap = s.heap ∧ s1.destroyed = s.destroyed ∧
      (t.resource ≠ nullptr → out = nullptr →
        (∃ o, s1.heap t.resource = some o) ∧
        s1.handles h ≠ some ⟨t.resource⟩ ∧ out ≠ t.resource) := by
  have key := get_as_eq env s h U t hh hlive
  refine ⟨_, s.setResource h nullptr, key, ?_, ?_, by simp, rfl, rfl, ?_⟩
  · simp [oop_ptr.release_as, key, Outcome.bind]
  · simp [oop_ptr.operator_bool]
  · intro hn hout
    rcases hlive with h0 | ⟨o, ho⟩
    · exact absurd h0 hn
    · refine ⟨⟨o, by simpa using ho⟩, ?_, ?_⟩
      · rw [State.setResource_same]
        intro hEq
        injection hEq with hEq
        injection hEq with hEq
        exact hn hEq.symm
      · rw [hout]
        exact fun hEq => hn hEq.symm

/-- Instance of C9: handle `1` of `demoState` owns an object of class `2`;
releasing it as the unrelated class `3`. -/
theorem release_as_always_empties_witness :
    ∃ out s1, oop_ptr.get_as demoEnv demoState 1 3 = .ok (out, demoState) ∧
      oop_ptr.release_as demoEnv demoState 1 3 = .ok (out, s1) ∧
      oop_ptr.operator_bool s1 1 = .ok (false, s1) ∧
      s1.handles 1 = some ⟨nullptr⟩ ∧ s1.heap = demoState.heap ∧
      s1.destroyed = demoState.destroyed ∧
      ((⟨5⟩ : oop_ptr).resource ≠ nullptr → out = nullptr →
        (∃ o, s1.heap (⟨5⟩ : oop_ptr).resource = some o) ∧
        s1.handles 1 ≠ some ⟨(⟨5⟩ : oop_ptr).resource⟩ ∧ out ≠ (⟨5⟩ : oop_ptr).resource) :=
  release_as_always_empties demoEnv demoState 1 3 ⟨5⟩ rfl (Or.inr ⟨⟨2, [7]⟩, rfl⟩)

/-- In `demoState`, releasing handle `1` as the unrelated class `3` returns
null and leaves the object at `5` live and unreferenced. -/
theorem release_as_mismatch_example :
    ∃ s1, oop_ptr.release_as demoEnv demoState 1 3 = .ok (nullptr, s1) ∧
      s1.handles 1 = some ⟨nullptr⟩ ∧ s1.heap 5 = some ⟨2, [7]⟩ :=
  ⟨demoState.setResource 1 nullptr, rfl, rfl, rfl⟩

/-! ## The clone call -/

/-- The first-fit allocation function returns a non-null free address. -/
theorem first_fit_fresh (size : Nat) (hp : Heap) (q : Ptr)
    (h : first_fit size hp = some q) : q ≠ nullptr ∧ hp q = none := by
  unfold first_fit at h
  have hmem := List.mem_of_find?_eq_some h
  have hp' := List.find?_some h
  constructor
  · simp only [List.mem_map, List.mem_range] at hmem
    obtain ⟨i, _, hi⟩ := hmem
    subst hi
    exact Nat.succ_ne_zero i
  · cases hq : hp q with
    | none => rfl
    | some o => simp [hq] at hp'

/-- Clones generated by `oop_ptr_define` in every class satisfy the Clone
Capability as soon as the allocation function returns free non-null addresses. -/
theorem virtual_get_copy_capability (operator_new : Heap → Option Ptr) (d : Nat → Nat → Bool)
    (hnew : ∀ hp q, operator_new hp = some q → q ≠ nullptr ∧ hp q = none) :
    CloneCapability { get_copy_ptr := virtual_get_copy operator_new, derives := d } := by
  intro hp p o q hp' ho hc
  simp only [virtual_get_copy, ho, oop_ptr_define] at hc
  cases hn : operator_new hp with
  | none => simp [hn] at hc
  | some q' =>
    simp only [hn, Option.some.injEq, Prod.mk.injEq] at hc
    obtain ⟨hq, hhp⟩ := hc
    subst hq
    obtain ⟨h1, h2⟩ := hnew hp q' hn
    exact ⟨h1, h2, ⟨o.rtype, o.fields⟩, rfl, hhp.symm⟩

/-- The demonstration program satisfies the Clone Capability. -/
theorem demoEnv_capability : CloneCapability demoEnv :=
  virtual_get_copy_capability (first_fit 16) _ (fun hp q h => first_fit_fresh 16 hp q h)

/-- A clone call on a live object that returns: the state afterwards. -/
theorem call_get_copy_ok (env : Env) (s : State) (p q : Ptr) (o : Obj) (hp' : Heap)
    (hp : p ≠ nullptr) (ho : s.heap p = some o)
    (hc : env.get_copy_ptr s.heap p = some (q, hp')) :
    call_get_copy env s p = .ok (q, { s with heap := hp', clones := s.clones + 1 }) := by
  simp [call_get_copy, hp, ho, hc]

/-- A clone call on a live object that fails: the exception leaves with the
state unchanged but for the invocation count. -/
theorem call_get_copy_fail (env : Env) (s : State) (p : Ptr) (o : Obj)
    (hp : p ≠ nullptr) (ho : s.heap p = some o)
    (hc : env.get_copy_ptr s.heap p = none) :
    call_get_copy env s p = .bad_alloc { s with clones := s.clones + 1 } := by
  simp [call_get_copy, hp, ho, hc]

/-- Whenever a clone call completes, the receiver was a live object and the
virtual function returned the reported pointer and free store. -/
theorem call_get_copy_inv (env : Env) (s s1 : State) (p q : Ptr)
    (h : call_get_copy env s p = .ok (q, s1)) :
    p ≠ nullptr ∧ (∃ o, s.heap p = some o) ∧
      env.get_copy_ptr s.heap p = some (q, s1.heap) ∧
      s1 = { s with heap := s1.heap, clones := s.clones + 1 } := by
  unfold call_get_copy at h
  by_cases hp : p = nullptr
  · simp [hp] at h
  · cases ho : s.heap p with
    | none => simp [hp, ho] at h
    | some o =>
      cases hc : env.get_copy_ptr s.heap p with
      | none => simp [hp, ho, hc] at h
      | some r =>
        obtain ⟨q', hp'⟩ := r
        simp only [hp, ho, hc, if_false, Outcome.ok.injEq, Prod.mk.injEq] at h
        obtain ⟨hq, hs⟩ := h
        subst hq
        subst hs
        exact ⟨hp, ⟨o, rfl⟩, rfl, rfl⟩

/-! ## Copy construction -/

/-- C2: let `h1` own the live object `x` of runtime class `ox.rtype`, let the
clone function satisfy the Clone Capability and let the clone call return.
Then copy construction of `h2` from `h1` completes; `h2` owns an object at a
non-null address `q` different from `x` that was not live before, whose
runtime class is that of `x`; `h1` still owns `x`, which is unchanged. -/
theorem ctor_copy_deep (env : Env) (s : State) (h1 h2 : Nat) (x : Ptr) (ox : Obj)
    (hcap : CloneCapability env)
    (hh : s.handles h1 = some ⟨x⟩) (hx : x ≠ nullptr) (hox : s.heap x = some ox)
    (hret : (env.get_copy_ptr s.heap x).isSome = true) (hne : h2 ≠ h1) :
    ∃ s' q oq, oop_ptr.ctor_copy env s h2 h1 = .ok s' ∧
      s'.handles h2 = some ⟨q⟩ ∧ q ≠ x ∧ q ≠ nullptr ∧ s.heap q = none ∧
      s'.heap q = some oq ∧ oq.rtype = ox.rtype ∧
      s'.handles h1 = some ⟨x⟩ ∧ s'.heap x = some ox := by
  obtain ⟨⟨q, hp'⟩, hc⟩ := Option.isSome_iff_exists.mp hret
  obtain ⟨hq0, hqfree, oq, hty, hhp⟩ := hcap s.heap x ox q hp' hox hc
  have hqx : q ≠ x := by
    intro h
    rw [h, hox] at hqfree
    exact Option.noConfusion hqfree
  refine ⟨({ s with heap := hp', clones := s.clones + 1 } : State).setResource h2 q, q, oq,
    ?_, by simp, hqx, hq0, hqfree, ?_, hty, ?_, ?_⟩
  · simp [oop_ptr.ctor_copy, hh, call_get_copy_ok env s x q ox hp' hx hox hc, Outcome.bind]
  · simp [hhp]
  · rw [State.setResource_other _ _ _ _ hne.symm]
    exact hh
  · simp only [State.setResource_heap, hhp]
    rw [Heap.set_other _ _ _ _ hqx.symm]
    exact hox

/-- Instance of C2: copying handle `1` of `demoState` into a new handle at
address `4`. -/
theorem ctor_copy_deep_witness :
    ∃ s' q oq, oop_ptr.ctor_copy demoEnv demoState 4 1 = .ok s' ∧
      s'.handles 4 = some ⟨q⟩ ∧ q ≠ 5 ∧ q ≠ nullptr ∧ demoState.heap q = none ∧
      s'.heap q = some oq ∧ oq.rtype = (⟨2, [7]⟩ : Obj).rtype ∧
      s'.handles 1 = some ⟨5⟩ ∧ s'.heap 5 = some ⟨2, [7]⟩ :=
  ctor_copy_deep demoEnv demoState 1 4 5 ⟨2, [7]⟩ demoEnv_capability rfl (by decide) rfl
    (by decide) (by decide)

/-! ## Copies are independent objects -/

/-- Normal completion of a sequence: the first part completed normally. -/
theorem Outcome.bind_eq_ok {α β : Type} (r : Outcome α) (f : α → Outcome β) (b : β)
    (h : r.bind f = .ok b) : ∃ a, r = .ok a ∧ f a = .ok b := by
  cases r with
  | ok a => exact ⟨a, rfl, h⟩
  | bad_alloc s => simp [Outcome.bind] at h
  | ub => simp [Outcome.bind] at h

/-- A delete-expression that completes leaves the handles, the clone count
and every other object alone. -/
theorem delete_expr_inv (s s1 : State) (p : Ptr) (h : delete_expr s p = .ok s1) :
    s1.handles = s.handles ∧ s1.clones = s.clones ∧
      (∀ x, x ≠ p → s1.heap x = s.heap x) ∧
      ((p = nullptr ∧ s1 = s) ∨
        (p ≠ nullptr ∧ (∃ o, s.heap p = some o) ∧ s1.heap p = none ∧
          s1.heap = s.heap.set p none ∧ s1.destroyed = p :: s.destroyed)) := by
  unfold delete_expr at h
  by_cases hp : p = nullptr
  · simp only [hp, if_true, Outcome.ok.injEq] at h
    subst h
    exact ⟨rfl, rfl, fun _ _ => rfl, Or.inl ⟨hp, rfl⟩⟩
  · cases ho : s.heap p with
    | none => simp [hp, ho] at h
    | some o =>
      simp only [hp, ho, if_false, Outcome.ok.injEq] at h
      subst h
      exact ⟨rfl, rfl, fun x hx => Heap.set_other _ _ _ _ hx,
        Or.inr ⟨hp, ⟨o, rfl⟩, by simp, rfl, rfl⟩⟩

/-- State reached by a completed copy construction or copy assignment of `h2`
from a distinct handle `h1`, under the Clone Capability: `h1` holds a live
object `x`, `h2` holds a live object at a different address `q` of the same
runtime class. -/
theorem copy_post (env : Env) (s s' : State) (h1 h2 : Nat)
    (hcap : CloneCapability env) (hne : h2 ≠ h1)
    (hcopy : oop_ptr.ctor_copy env s h2 h1 = .ok s' ∨
      oop_ptr.assign_copy env s h2 h1 = .ok s') :
    ∃ x q ox oq, s.handles h1 = some ⟨x⟩ ∧ s'.handles h1 = some ⟨x⟩ ∧
      s'.handles h2 = some ⟨q⟩ ∧ x ≠ nullptr ∧ q ≠ nullptr ∧ q ≠ x ∧
      s'.heap x = some ox ∧ s'.heap q = some oq ∧ oq.rtype = ox.rtype ∧
      s.heap x = some ox := by
  rcases hcopy with hc | hc
  · unfold oop_ptr.ctor_copy at hc
    cases hh : s.handles h1 with
    | none => simp [hh] at hc
    | some o =>
      simp only [hh] at hc
      obtain ⟨⟨q, s1⟩, hcall, hfin⟩ := Outcome.bind_eq_ok _ _ _ hc
      simp only [Outcome.ok.injEq] at hfin
      subst hfin
      obtain ⟨hx, ⟨ox, hox⟩, hget, _⟩ := call_get_copy_inv env s s1 o.resource q hcall
      obtain ⟨hq0, hqfree, oq, hty, hhp⟩ := hcap s.heap o.resource ox q s1.heap hox hget
      have hqx : q ≠ o.resource := by
        intro h
        rw [h, hox] at hqfree
        exact Option.noConfusion hqfree
      have hs1 := (call_get_copy_inv env s s1 o.resource q hcall).2.2.2
      refine ⟨o.resource, q, ox, oq, rfl, ?_, by simp, hx, hq0, hqx, ?_, ?_, hty, hox⟩
      · rw [State.setResource_other _ _ _ _ hne.symm, hs1]
        exact hh
      · simp only [State.setResource_heap, hhp]
        rw [Heap.set_other _ _ _ _ hqx.symm]
        exact hox
      · simp [hhp]
  · unfold oop_ptr.assign_copy at hc
    simp only [ne_eq, hne, not_false_eq_true, if_true] at hc
    cases ht : s.handles h2 with
    | none => simp [ht] at hc
    | some t =>
      simp only [ht] at hc
      obtain ⟨s1, hdel, hrest⟩ := Outcome.bind_eq_ok _ _ _ hc
      obtain ⟨hhd, _, hother, hcase⟩ := delete_expr_inv s s1 t.resource hdel
      cases hh : s1.handles h1 with
      | none => simp [hh] at hrest
      | some o =>
        simp only [hh] at hrest
        obtain ⟨⟨q, s2⟩, hcall, hfin⟩ := Outcome.bind_eq_ok _ _ _ hrest
        simp only [Outcome.ok.injEq] at hfin
        subst hfin
        obtain ⟨hx, ⟨ox, hox⟩, hget, hs2⟩ := call_get_copy_inv env s1 s2 o.resource q hcall
        obtain ⟨hq0, hqfree, oq, hty, hhp⟩ := hcap s1.heap o.resource ox q s2.heap hox hget
        have hqx : q ≠ o.resource := by
          intro h
          rw [h, hox] at hqfree
          exact Option.noConfusion hqfree
        have hxt : o.resource ≠ t.resource := by
          intro h
          rcases hcase with ⟨h0, _⟩ | ⟨_, _, hgone, _⟩
          · exact hx (h.trans h0)
          · rw [h, hgone] at hox
            exact Option.noConfusion hox
        rw [hhd] at hh
        refine ⟨o.resource, q, ox, oq, hh, ?_, by simp, hx, hq0, hqx, ?_, ?_, hty, ?_⟩
        · rw [State.setResource_other _ _ _ _ hne.symm, hs2]
          show s1.handles h1 = _
          rw [hhd]
          exact hh
        · simp only [State.setResource_heap, hhp]
          rw [Heap.set_other _ _ _ _ hqx.symm]
          exact hox
        · simp [hhp]
        · rw [← hother _ hxt]
          exact hox

/-- A write through a handle whose resource points to a live object
completes, replaces the data members of that object and changes no other
object or handle. -/
theorem write_through_ok (s : State) (h : Nat) (p : Ptr) (o : Obj) (v : List Int)
    (hh : s.handles h = some ⟨p⟩) (hp : p ≠ nullptr) (ho : s.heap p = some o) :
    ∃ s1, write_through s h v = .ok s1 ∧ s1.handles = s.handles ∧
      s1.heap p = some { o with fields := v } ∧ ∀ x, x ≠ p → s1.heap x = s.heap x := by
  refine ⟨{ s with heap := s.heap.set p (some { o with fields := v }) }, ?_, rfl, by simp,
    fun x hx => Heap.set_other _ _ _ _ hx⟩
  simp [write_through, oop_ptr.operator_arrow, hh, Outcome.bind, write_obj, hp, ho]

/-- C3: let `h2` be obtained from a distinct handle `h1` by a completed copy
construction or copy assignment, the clone function satisfying the Clone
Capability.  Then the two handles hold distinct non-null resources, every
write through `h1` completes and leaves the object of `h2` as it was, and every
write through `h2` completes and leaves the object of `h1` as it was. -/
theorem copy_independence (env : Env) (s s' : State) (h1 h2 : Nat)
    (hcap : CloneCapability env) (hne : h2 ≠ h1)
    (hcopy : oop_ptr.ctor_copy env s h2 h1 = .ok s' ∨
      oop_ptr.assign_copy env s h2 h1 = .ok s') :
    ∃ x q, s'.handles h1 = some ⟨x⟩ ∧ s'.handles h2 = some ⟨q⟩ ∧
      x ≠ nullptr ∧ q ≠ nullptr ∧ q ≠ x ∧
      (∀ v, ∃ s1 o, write_through s' h1 v = .ok s1 ∧
        s1.heap x = some o ∧ o.fields = v ∧ s1.heap q = s'.heap q) ∧
      (∀ v, ∃ s1 o, write_through s' h2 v = .ok s1 ∧
        s1.heap q = some o ∧ o.fields = v ∧ s1.heap x = s'.heap x) := by
  obtain ⟨x, q, ox, oq, _, hx, hq, hx0, hq0, hqx, hox, hoq, _, _⟩ :=
    copy_post env s s' h1 h2 hcap hne hcopy
  refine ⟨x, q, hx, hq, hx0, hq0, hqx, ?_, ?_⟩
  · intro v
    obtain ⟨s1, hw, _, hnew, hframe⟩ := write_through_ok s' h1 x ox v hx hx0 hox
    exact ⟨s1, _, hw, hnew, rfl, hframe q hqx⟩
  · intro v
    obtain ⟨s1, hw, _, hnew, hframe⟩ := write_through_ok s' h2 q oq v hq hq0 hoq
    exact ⟨s1, _, hw, hnew, rfl, hframe x hqx.symm⟩

/-- Instance of C3: handle `4` copy-constructed from handle `1` of
`demoState`. -/
theorem copy_independence_witness :
    ∃ x q, demoCopy.handles 1 = some ⟨x⟩ ∧ demoCopy.handles 4 = some ⟨q⟩ ∧
      x ≠ nullptr ∧ q ≠ nullptr ∧ q ≠ x ∧
      (∀ v, ∃ s1 o, write_through demoCopy 1 v = .ok s1 ∧
        s1.heap x = some o ∧ o.fields = v ∧ s1.heap q = demoCopy.heap q) ∧
      (∀ v, ∃ s1 o, write_through demoCopy 4 v = .ok s1 ∧
        s1.heap q = some o ∧ o.fields = v ∧ s1.heap x = demoCopy.heap x) :=
  copy_independence demoEnv demoState demoCopy 1 4 demoEnv_capability (by decide)
    (Or.inl rfl)

/-! ## Counting clone invocations -/

/-- A clone call on a live object either returns or throws; in both cases
the invocation count has gone up by one and the handles are untouched. -/
theorem call_get_copy_live (env : Env) (s : State) (p : Ptr) (o : Obj)
    (hp : p ≠ nullptr) (ho : s.heap p = some o) :
    (∃ q hp', call_get_copy env s p = .ok (q, { s with heap := hp', clones := s.clones + 1 })) ∨
      call_get_copy env s p = .bad_alloc { s with clones := s.clones + 1 } := by
  cases hc : env.get_copy_ptr s.heap p with
  | none => exact Or.inr (call_get_copy_fail env s p o hp ho hc)
  | some r =>
    obtain ⟨q, hp'⟩ := r
    exact Or.inl ⟨q, hp', call_get_copy_ok env s p q o hp' hp ho hc⟩

/-- A delete-expression on a null pointer or a live object completes. -/
theorem delete_expr_live (s : State) (p : Ptr)
    (hp : p = nullptr ∨ ∃ o, s.heap p = some o) :
    ∃ s1, delete_expr s p = .ok s1 := by
  unfold delete_expr
  by_cases h0 : p = nullptr
  · exact ⟨s, by simp [h0]⟩
  · rcases hp with h | ⟨o, ho⟩
    · exact absurd h h0
    · exact ⟨{ s with heap := s.heap.set p none, destroyed := p :: s.destroyed },
        by simp [h0, ho]⟩

/-- Invocation count after a clone call followed by storing the result in a
handle. -/
theorem clones_after_store (env : Env) (s : State) (p : Ptr) (o : Obj) (this : Nat)
    (hp : p ≠ nullptr) (ho : s.heap p = some o) :
    (((call_get_copy env s p).bind fun (r : Ptr × State) =>
        Outcome.ok (r.2.setResource this r.1)).finalState.map State.clones)
      = some (s.clones + 1) := by
  rcases call_get_copy_live env s p o hp ho with ⟨q, hp', h⟩ | h
  · rw [h]; rfl
  · rw [h]; rfl

/-- C5: counting invocations of `oop_ptr_get_copy` in the state in which an
operation ends (by completing or by a propagated `std::bad_alloc`).  On a
live source, copy construction, copy assignment between distinct handles
holding distinct objects, the clone-from-object constructor and the factories
`copy(obj)`, `copy(ptr)` each end with the count one higher; move
construction, move assignment, `release()`, `release<U>()` and `move(ptr)`
end with the count unchanged. -/
theorem clone_counts (env : Env) (s : State) :
    (∀ this other o ox, s.handles other = some o → o.resource ≠ nullptr →
        s.heap o.resource = some ox →
        (oop_ptr.ctor_copy env s this other).finalState.map State.clones
          = some (s.clones + 1)) ∧
    (∀ this other t o ox, this ≠ other → s.handles this = some t →
        (t.resource = nullptr ∨ ∃ ot, s.heap t.resource = some ot) →
        s.handles other = some o → o.resource ≠ nullptr → s.heap o.resource = some ox →
        t.resource ≠ o.resource →
        (oop_ptr.assign_copy env s this other).finalState.map State.clones
          = some (s.clones + 1)) ∧
    (∀ this obj oo, obj ≠ nullptr → s.heap obj = some oo →
        (oop_ptr.ctor_obj env s this obj).finalState.map State.clones = some (s.clones + 1) ∧
        (oop_ptr.copy_obj env s this obj).finalState.map State.clones = some (s.clones + 1) ∧
        (oop_ptr.copy_ptr env s this obj).finalState.map State.clones
          = some (s.clones + 1)) ∧
    (∀ this other o, s.handles other = some o →
        (oop_ptr.ctor_move s this other).finalState.map State.clones = some s.clones) ∧
    (∀ this other t o, s.handles this = some t →
        (t.resource = nullptr ∨ ∃ ot, s.heap t.resource = some ot) →
        s.handles other = some o →
        (oop_ptr.assign_move s this other).finalState.map State.clones = some s.clones) ∧
    (∀ this t, s.handles this = some t →
        (oop_ptr.release s this).dropValue.finalState.map State.clones = some s.clones) ∧
    (∀ this U t, s.handles this = some t →
        (t.resource = nullptr ∨ ∃ ot, s.heap t.resource = some ot) →
        (oop_ptr.release_as env s this U).dropValue.finalState.map State.clones
          = some s.clones) ∧
    (∀ dst ptr, (oop_ptr.move s dst ptr).clones = s.clones) := by
  refine ⟨?_, ?_, ?_, ?_, ?_, ?_, ?_, ?_⟩
  · intro this other o ox ho hx hox
    simp only [oop_ptr.ctor_copy, ho]
    exact clones_after_store env s o.resource ox this hx hox
  · intro this other t o ox hne ht htl ho hx hox hdist
    obtain ⟨s1, hdel⟩ := delete_expr_live s t.resource htl
    obtain ⟨hhd, hcl, hframe, _⟩ := delete_expr_inv s s1 t.resource hdel
    have ho1 : s1.handles other = some o := by rw [hhd]; exact ho
    have hox1 : s1.heap o.resource = some ox := by rw [hframe _ hdist.symm]; exact hox
    simp only [oop_ptr.assign_copy, ne_eq, hne, not_false_eq_true, if_true, ht, hdel,
      Outcome.bind, ho1]
    rw [← hcl]
    exact clones_after_store env s1 o.resource ox this hx hox1
  · intro this obj oo hobj hoo
    have h := clones_after_store env s obj oo this hobj hoo
    exact ⟨h, h, h⟩
  · intro this other o ho
    simp [oop_ptr.ctor_move, ho, Outcome.finalState]
  · intro this other t o ht htl ho
    by_cases hne : this = other
    · simp [oop_ptr.assign_move, hne, Outcome.finalState]
    · obtain ⟨s1, hdel⟩ := delete_expr_live s t.resource htl
      obtain ⟨hhd, hcl, _, _⟩ := delete_expr_inv s s1 t.resource hdel
      have ho1 : s1.handles other = some o := by rw [hhd]; exact ho
      simp [oop_ptr.assign_move, hne, ht, hdel, Outcome.bind, ho1, Outcome.finalState, hcl]
  · intro this t ht
    simp [oop_ptr.release, oop_ptr.get, ht, Outcome.bind, Outcome.dropValue,
      Outcome.finalState]
  · intro this U t ht htl
    simp [oop_ptr.release_as, get_as_eq env s this U t ht htl, Outcome.bind,
      Outcome.dropValue, Outcome.finalState]
  · intro dst ptr
    rfl

/-- Instance of C5 on `demoState`: a copy construction, a copy assignment, a
clone-from-object construction, a move construction and a move assignment. -/
theorem clone_counts_witness :
    (oop_ptr.ctor_copy demoEnv demoState 4 1).finalState.map State.clones
        = some (demoState.clones + 1) ∧
    (oop_ptr.assign_copy demoEnv demoState 2 1).finalState.map State.clones
        = some (demoState.clones + 1) ∧
    (oop_ptr.ctor_obj demoEnv demoState 4 6).finalState.map State.clones
        = some (demoState.clones + 1) ∧
    (oop_ptr.ctor_move demoState 4 1).finalState.map State.clones = some demoState.clones ∧
    (oop_ptr.assign_move demoState 2 1).finalState.map State.clones
        = some demoState.clones :=
  ⟨(clone_counts demoEnv demoState).1 4 1 ⟨5⟩ ⟨2, [7]⟩ rfl (by decide) rfl,
   (clone_counts demoEnv demoState).2.1 2 1 ⟨6⟩ ⟨5⟩ ⟨2, [7]⟩ (by decide) rfl
     (Or.inr ⟨⟨1, [3]⟩, rfl⟩) rfl (by decide) rfl (by decide),
   ((clone_counts demoEnv demoState).2.2.1 4 6 ⟨1, [3]⟩ (by decide) rfl).1,
   (clone_counts demoEnv demoState).2.2.2.1 4 1 ⟨5⟩ rfl,
   (clone_counts demoEnv demoState).2.2.2.2.1 2 1 ⟨6⟩ ⟨5⟩ rfl (Or.inr ⟨⟨1, [3]⟩, rfl⟩) rfl⟩

/-! ## Copy assignment when the clone fails -/

/-- Copy assignment `a = b` between distinct handles owning distinct live
objects `x` and `y`, when the clone of `y` fails: the exception is propagated
from a state in which `x` has already been destroyed, the handles (also `a`,
which still holds the address `x`) are as before, and `y` is untouched. -/
theorem assign_copy_failure (env : Env) (s : State) (a b : Nat) (x y : Ptr) (ox oy : Obj)
    (hne : a ≠ b) (ha : s.handles a = some ⟨x⟩) (hx : x ≠ nullptr)
    (hox : s.heap x = some ox) (hb : s.handles b = some ⟨y⟩) (hy : y ≠ nullptr)
    (hoy : s.heap y = some oy) (hxy : x ≠ y)
    (hfail : env.get_copy_ptr (s.heap.set x none) y = none) :
    oop_ptr.assign_copy env s a b =
      .bad_alloc { heap := s.heap.set x none, handles := s.handles,
                   clones := s.clones + 1, destroyed := x :: s.destroyed } := by
  have hoy1 : (s.heap.set x none) y = some oy := by
    rw [Heap.set_other _ _ _ _ hxy.symm]; exact hoy
  simp [oop_ptr.assign_copy, hne, ha, delete_expr, hx, hox, Outcome.bind, hb,
    call_get_copy, hy, hoy1, hfail]

/-- C10 (the code at the failing input): in `demoState` handle `2` owns the
live object at `6` and handle `1` the live object at `5`; with the free store
exhausted, the copy assignment `handle 2 = handle 1` propagates
`std::bad_alloc` from a state in which the object at `6` has been destroyed
while handle `2` still holds the address `6`; running the destructor of
handle `2` in that state is undefined (a second delete of the same object). -/
theorem assign_copy_bad_alloc_dangles :
    demoState.handles 2 = some ⟨6⟩ ∧ demoState.heap 6 = some ⟨1, [3]⟩ ∧
    ∃ s', oop_ptr.assign_copy noMemEnv demoState 2 1 = .bad_alloc s' ∧
      s'.handles 2 = some ⟨6⟩ ∧ s'.heap 6 = none ∧ s'.destroyed = [6] ∧
      oop_ptr.dtor s' 2 = .ub :=
  ⟨rfl, rfl,
    { heap := demoState.heap.set 6 none, handles := demoState.handles,
      clones := demoState.clones + 1, destroyed := 6 :: demoState.destroyed },
    assign_copy_failure noMemEnv demoState 2 1 6 5 ⟨1, [3]⟩ ⟨2, [7]⟩ (by decide) rfl
      (by decide) rfl rfl (by decide) rfl (by decide) rfl,
    rfl, rfl, rfl, rfl⟩

/-! ## Exclusive ownership -/

/-- The invariant restricted to the handles other than `h`. -/
theorem Inv.except {s : State} (hinv : Inv s) (h : Nat) : InvExcept s h :=
  ⟨fun h1 h2 t1 t2 _ _ hne e1 e2 he => hinv.1 h1 h2 t1 t2 hne e1 e2 he,
   fun k t _ e hn => hinv.2 k t e hn⟩

/-- Giving the handle at `h` a resource that is null, or live and held by no
other handle, establishes the invariant. -/
theorem InvExcept.setResource {s : State} {h : Nat} (hex : InvExcept s h) (p : Ptr)
    (hp : p = nullptr ∨
      ((∃ o, s.heap p = some o) ∧ ∀ k t, k ≠ h → s.handles k = some t → t.resource ≠ p)) :
    Inv (s.setResource h p) := by
  constructor
  · intro h1 h2 t1 t2 hne e1 e2 he
    by_cases c1 : h1 = h
    · subst c1
      rw [State.setResource_same] at e1
      rw [State.setResource_other _ _ _ _ (Ne.symm hne)] at e2
      cases e1
      rcases hp with hp | ⟨_, hp⟩
      · exact hp
      · exact absurd he.symm (hp h2 t2 (Ne.symm hne) e2)
    · rw [State.setResource_other _ _ _ _ c1] at e1
      by_cases c2 : h2 = h
      · subst c2
        rw [State.setResource_same] at e2
        cases e2
        rcases hp with hp | ⟨_, hp⟩
        · exact he.trans hp
        · exact absurd he (hp h1 t1 c1 e1)
      · rw [State.setResource_other _ _ _ _ c2] at e2
        exact hex.1 h1 h2 t1 t2 c1 c2 hne e1 e2 he
  · intro k t e hn
    by_cases c : k = h
    · subst c
      rw [State.setResource_same] at e
      cases e
      rcases hp with hp | ⟨hl, _⟩
      · exact absurd hp hn
      · exact hl
    · rw [State.setResource_other _ _ _ _ c] at e
      exact hex.2 k t c e hn

/-- Ending the lifetime of the handle at `h` establishes the invariant. -/
theorem InvExcept.dropHandle {s : State} {h : Nat} (hex : InvExcept s h) :
    Inv (s.dropHandle h) := by
  constructor
  · intro h1 h2 t1 t2 hne e1 e2 he
    by_cases c1 : h1 = h
    · simp [State.dropHandle, c1] at e1
    · by_cases c2 : h2 = h
      · simp [State.dropHandle, c2] at e2
      · simp only [State.dropHandle, c1, c2, if_false] at e1 e2
        exact hex.1 h1 h2 t1 t2 c1 c2 hne e1 e2 he
  · intro k t e hn
    by_cases c : k = h
    · simp [State.dropHandle, c] at e
    · simp only [State.dropHandle, c, if_false] at e
      exact hex.2 k t c e hn

/-- The invariant only looks at the handles and the free store. -/
theorem Inv.congr_state {s s' : State} (hinv : Inv s) (hh : ∀ k, s'.handles k = s.handles k)
    (hp : s'.heap = s.heap) : Inv s' := by
  constructor
  · intro h1 h2 t1 t2 hne e1 e2 he
    rw [hh] at e1 e2
    exact hinv.1 h1 h2 t1 t2 hne e1 e2 he
  · intro k t e hn
    rw [hh] at e
    rw [hp]
    exact hinv.2 k t e hn

/-- The restricted invariant only looks at the handles and the free store. -/
theorem InvExcept.congr_except {s s' : State} {h : Nat} (hex : InvExcept s h)
    (hh : ∀ k, s'.handles k = s.handles k) (hp : s'.heap = s.heap) : InvExcept s' h := by
  constructor
  · intro h1 h2 t1 t2 c1 c2 hne e1 e2 he
    rw [hh] at e1 e2
    exact hex.1 h1 h2 t1 t2 c1 c2 hne e1 e2 he
  · intro k t c e hn
    rw [hh] at e
    rw [hp]
    exact hex.2 k t c e hn

/-- Deleting the resource of the handle at `h` keeps the invariant on the
other handles. -/
theorem Inv.delete_resource {s s1 : State} (hinv : Inv s) (h : Nat) (t : oop_ptr)
    (ht : s.handles h = some t) (hdel : delete_expr s t.resource = .ok s1) :
    InvExcept s1 h := by
  obtain ⟨hhd, _, hframe, _⟩ := delete_expr_inv s s1 t.resource hdel
  constructor
  · intro h1 h2 t1 t2 _ _ hne e1 e2 he
    rw [hhd] at e1 e2
    exact hinv.1 h1 h2 t1 t2 hne e1 e2 he
  · intro k t' c e hn
    rw [hhd] at e
    have hne : t'.resource ≠ t.resource := fun heq => hn (hinv.1 k h t' t c e ht heq)
    rw [hframe _ hne]
    exact hinv.2 k t' e hn

/-- A newly allocated object keeps the restricted invariant, and no other
handle holds its address. -/
theorem InvExcept.alloc {s : State} {h : Nat} (hex : InvExcept s h) (q : Ptr) (o : Obj)
    (c : Nat) (hq0 : q ≠ nullptr) (hq : s.heap q = none) :
    InvExcept { s with heap := s.heap.set q (some o), clones := c } h ∧
      ∀ k t, k ≠ h → s.handles k = some t → t.resource ≠ q := by
  have hfree : ∀ k t, k ≠ h → s.handles k = some t → t.resource ≠ q := by
    intro k t ck e heq
    obtain ⟨o', ho'⟩ := hex.2 k t ck e (heq ▸ hq0)
    rw [heq, hq] at ho'
    exact Option.noConfusion ho'
  refine ⟨⟨hex.1, ?_⟩, hfree⟩
  intro k t ck e hn
  obtain ⟨o', ho'⟩ := hex.2 k t ck e hn
  refine ⟨o', ?_⟩
  show (s.heap.set q (some o)) t.resource = some o'
  rw [Heap.set_other _ _ _ _ (hfree k t ck e)]
  exact ho'

/-- Storing the result of a completed clone call in the handle at `h`
establishes the invariant. -/
theorem InvExcept.store_clone {env : Env} {s s1 : State} {h : Nat} (hcap : CloneCapability env)
    (hex : InvExcept s h) (p q : Ptr) (hcall : call_get_copy env s p = .ok (q, s1)) :
    Inv (s1.setResource h q) := by
  obtain ⟨_, ⟨ox, hox⟩, hget, hs1⟩ := call_get_copy_inv env s s1 p q hcall
  obtain ⟨hq0, hqfree, oq, _, hhp⟩ := hcap s.heap p ox q s1.heap hox hget
  obtain ⟨hex1, hfree⟩ := hex.alloc q oq (s.clones + 1) hq0 hqfree
  rw [hs1]
  apply InvExcept.setResource
  · exact hex1.congr_except (fun _ => rfl) hhp
  · refine Or.inr ⟨⟨oq, ?_⟩, hfree⟩
    show s1.heap q = some oq
    rw [hhp]
    simp

/-- Emptying any handle keeps the restricted invariant. -/
theorem InvExcept.setNull {s : State} {h : Nat} (hex : InvExcept s h) (k : Nat) :
    InvExcept (s.setResource k nullptr) h := by
  constructor
  · intro h1 h2 t1 t2 c1 c2 hne e1 e2 he
    by_cases d1 : h1 = k
    · subst d1
      rw [State.setResource_same] at e1
      cases e1
      rfl
    · rw [State.setResource_other _ _ _ _ d1] at e1
      by_cases d2 : h2 = k
      · subst d2
        rw [State.setResource_same] at e2
        cases e2
        exact he
      · rw [State.setResource_other _ _ _ _ d2] at e2
        exact hex.1 h1 h2 t1 t2 c1 c2 hne e1 e2 he
  · intro k' t c e hn
    by_cases d : k' = k
    · subst d
      rw [State.setResource_same] at e
      cases e
      exact absurd rfl hn
    · rw [State.setResource_other _ _ _ _ d] at e
      exact hex.2 k' t c e hn

/-- The pointer transfer of the move operations, `this->resource =
other.resource; other.resource = nullptr`, establishes the invariant. -/
theorem InvExcept.move_into {s : State} {h other : Nat} {o : oop_ptr} (hex : InvExcept s h)
    (hne : h ≠ other) (ho : s.handles other = some o) :
    Inv ((s.setResource h o.resource).setResource other nullptr) := by
  have hfin : Inv ((s.setResource other nullptr).setResource h o.resource) := by
    apply InvExcept.setResource (hex.setNull other)
    by_cases hr : o.resource = nullptr
    · exact Or.inl hr
    · refine Or.inr ⟨hex.2 other o (Ne.symm hne) ho hr, ?_⟩
      intro k t ck e heq
      by_cases d : k = other
      · subst d
        rw [State.setResource_same] at e
        cases e
        exact hr heq.symm
      · rw [State.setResource_other _ _ _ _ d] at e
        exact hr (heq ▸ hex.1 k other t o ck (Ne.symm hne) d e ho heq)
  refine hfin.congr_state ?_ rfl
  intro k
  by_cases d1 : k = other
  · subst d1
    rw [State.setResource_same, State.setResource_other _ _ _ _ (Ne.symm hne),
      State.setResource_same]
  · by_cases d2 : k = h
    · subst d2
      rw [State.setResource_other _ _ _ _ d1, State.setResource_same, State.setResource_same]
    · rw [State.setResource_other _ _ _ _ d1, State.setResource_other _ _ _ _ d2,
        State.setResource_other _ _ _ _ d2, State.setResource_other _ _ _ _ d1]

/-- The narrowing query never changes the state. -/
theorem get_as_state (env : Env) (s s1 : State) (h U : Nat) (out : Ptr)
    (hq : oop_ptr.get_as env s h U = .ok (out, s1)) : s1 = s := by
  unfold oop_ptr.get_as at hq
  cases hh : s.handles h with
  | none => simp [hh] at hq
  | some t =>
    simp only [hh] at hq
    by_cases hn : t.resource = nullptr
    · simp only [hn, if_true, Outcome.ok.injEq, Prod.mk.injEq] at hq
      exact hq.2.symm
    · simp only [hn, if_false] at hq
      obtain ⟨out', _, hfin⟩ := Outcome.bind_eq_ok _ _ _ hq
      by_cases ho : out' = nullptr
      · simp only [ho, ne_eq, not_true_eq_false, if_false, Outcome.ok.injEq,
          Prod.mk.injEq] at hfin
        exact hfin.2.symm
      · simp only [ne_eq, ho, not_false_eq_true, if_true, Outcome.ok.injEq,
          Prod.mk.injEq] at hfin
        exact hfin.2.symm

/-- The observers leave the state as it is. -/
theorem observers_state (env : Env) (s s' : State) (this U : Nat) :
    ((oop_ptr.operator_bool s this).dropValue = .ok s' → s' = s) ∧
    ((oop_ptr.operator_arrow s this).dropValue = .ok s' → s' = s) ∧
    ((oop_ptr.operator_star s this).dropValue = .ok s' → s' = s) ∧
    ((oop_ptr.get s this).dropValue = .ok s' → s' = s) ∧
    ((oop_ptr.get_as env s this U).dropValue = .ok s' → s' = s) ∧
    ((oop_ptr.gettable env s this U).dropValue = .ok s' → s' = s) := by
  refine ⟨?_, ?_, ?_, ?_, ?_, ?_⟩
  · intro h
    cases hh : s.handles this <;>
      simp [oop_ptr.operator_bool, hh, Outcome.dropValue, Outcome.bind] at h
    exact h.symm
  · intro h
    cases hh : s.handles this <;>
      simp [oop_ptr.operator_arrow, hh, Outcome.dropValue, Outcome.bind] at h
    exact h.symm
  · intro h
    obtain ⟨⟨p, s1⟩, hcall, hfin⟩ := Outcome.bind_eq_ok _ _ _ h
    simp only [Outcome.ok.injEq] at hfin
    subst hfin
    unfold oop_ptr.operator_star at hcall
    cases hh : s.handles this with
    | none => simp [hh] at hcall
    | some t =>
      simp only [hh] at hcall
      by_cases hn : t.resource = nullptr
      · simp [hn] at hcall
      · cases ho : s.heap t.resource with
        | none => simp [hn, ho] at hcall
        | some o =>
          simp only [hn, ho, if_false, Outcome.ok.injEq, Prod.mk.injEq] at hcall
          exact hcall.2.symm
  · intro h
    cases hh : s.handles this <;>
      simp [oop_ptr.get, hh, Outcome.dropValue, Outcome.bind] at h
    exact h.symm
  · intro h
    obtain ⟨⟨p, s1⟩, hcall, hfin⟩ := Outcome.bind_eq_ok _ _ _ h
    simp only [Outcome.ok.injEq] at hfin
    subst hfin
    exact get_as_state env s s1 this U p hcall
  · intro h
    obtain ⟨⟨b, s1⟩, hcall, hfin⟩ := Outcome.bind_eq_ok _ _ _ h
    simp only [Outcome.ok.injEq] at hfin
    subst hfin
    obtain ⟨⟨p, s2⟩, hcall2, hfin2⟩ := Outcome.bind_eq_ok _ _ _ hcall
    simp only [Outcome.ok.injEq, Prod.mk.injEq] at hfin2
    rw [← hfin2.2]
    exact get_as_state env s s2 this U p hcall2

/-- Transfer construction from an unowned pointer establishes the invariant. -/
theorem Inv.transfer {s : State} (hinv : Inv s) (this : Nat) (ptr : Ptr)
    (hun : Unowned s ptr) : Inv (s.setResource this ptr) := by
  apply InvExcept.setResource (hinv.except this)
  rcases hun with h0 | ⟨hl, hfree⟩
  · exact Or.inl h0
  · exact Or.inr ⟨hl, fun k t _ e => hfree k t e⟩

/-- Cloning an object and storing the clone in the handle at `this` keeps
the invariant. -/
theorem Inv.clone_into {env : Env} {s s' : State} (hcap : CloneCapability env)
    (hinv : Inv s) (this : Nat) (p : Ptr)
    (h : ((call_get_copy env s p).bind fun (r : Ptr × State) =>
      Outcome.ok (r.2.setResource this r.1)) = .ok s') : Inv s' := by
  obtain ⟨⟨q, s1⟩, hcall, hfin⟩ := Outcome.bind_eq_ok _ _ _ h
  simp only [Outcome.ok.injEq] at hfin
  subst hfin
  exact InvExcept.store_clone hcap (hinv.except this) p q hcall

/-- Every public operation that completes keeps the ownership invariant,
provided the clone function satisfies the Clone Capability and a transfer
construction receives an unowned pointer. -/
theorem step_preserves_Inv (env : Env) (hcap : CloneCapability env) (s s' : State) (op : Op)
    (hinv : Inv s) (htr : op.transferOk s) (hstep : step env s op = .ok s') : Inv s' := by
  cases op with
  | ctor_default this =>
    simp only [step, Outcome.ok.injEq] at hstep
    subst hstep
    exact InvExcept.setResource (hinv.except this) nullptr (Or.inl rfl)
  | ctor_obj this obj => exact hinv.clone_into hcap this obj hstep
  | ctor_ptr this ptr =>
    simp only [step, Outcome.ok.injEq] at hstep
    subst hstep
    exact hinv.transfer this ptr htr
  | ctor_copy this other =>
    simp only [step, oop_ptr.ctor_copy] at hstep
    cases ho : s.handles other with
    | none => simp [ho] at hstep
    | some o =>
      simp only [ho] at hstep
      exact hinv.clone_into hcap this o.resource hstep
  | ctor_move this other =>
    simp only [step, oop_ptr.ctor_move] at hstep
    cases ho : s.handles other with
    | none => simp [ho] at hstep
    | some o =>
      simp only [ho, Outcome.ok.injEq] at hstep
      subst hstep
      by_cases hne : this = other
      · subst hne
        refine (InvExcept.setResource (hinv.except this) nullptr (Or.inl rfl)).congr_state ?_ rfl
        intro k
        by_cases d : k = this
        · subst d
          rw [State.setResource_same, State.setResource_same]
        · rw [State.setResource_other _ _ _ _ d, State.setResource_other _ _ _ _ d,
            State.setResource_other _ _ _ _ d]
      · exact (hinv.except this).move_into hne ho
  | assign_copy this other =>
    simp only [step, oop_ptr.assign_copy] at hstep
    by_cases hne : this = other
    · simp only [hne, ne_eq, not_true_eq_false, if_false, Outcome.ok.injEq] at hstep
      subst hstep
      exact hinv
    · simp only [ne_eq, hne, not_false_eq_true, if_true] at hstep
      cases ht : s.handles this with
      | none => simp [ht] at hstep
      | some t =>
        simp only [ht] at hstep
        obtain ⟨s1, hdel, hrest⟩ := Outcome.bind_eq_ok _ _ _ hstep
        have hex := hinv.delete_resource this t ht hdel
        cases ho : s1.handles other with
        | none => simp [ho] at hrest
        | some o =>
          simp only [ho] at hrest
          obtain ⟨⟨q, s2⟩, hcall, hfin⟩ := Outcome.bind_eq_ok _ _ _ hrest
          simp only [Outcome.ok.injEq] at hfin
          subst hfin
          exact InvExcept.store_clone hcap hex o.resource q hcall
  | assign_move this other =>
    simp only [step, oop_ptr.assign_move] at hstep
    by_cases hne : this = other
    · simp only [hne, ne_eq, not_true_eq_false, if_false, Outcome.ok.injEq] at hstep
      subst hstep
      exact hinv
    · simp only [ne_eq, hne, not_false_eq_true, if_true] at hstep
      cases ht : s.handles this with
      | none => simp [ht] at hstep
      | some t =>
        simp only [ht] at hstep
        obtain ⟨s1, hdel, hrest⟩ := Outcome.bind_eq_ok _ _ _ hstep
        have hex := hinv.delete_resource this t ht hdel
        cases ho : s1.handles other with
        | none => simp [ho] at hrest
        | some o =>
          simp only [ho, Outcome.ok.injEq] at hrest
          subst hrest
          exact hex.move_into hne ho
  | operator_bool this =>
    rw [(observers_state env s s' this 0).1 hstep]; exact hinv
  | operator_arrow this =>
    rw [(observers_state env s s' this 0).2.1 hstep]; exact hinv
  | operator_star this =>
    rw [(observers_state env s s' this 0).2.2.1 hstep]; exact hinv
  | get this =>
    rw [(observers_state env s s' this 0).2.2.2.1 hstep]; exact hinv
  | get_as this U =>
    rw [(observers_state env s s' this U).2.2.2.2.1 hstep]; exact hinv
  | gettable this U =>
    rw [(observers_state env s s' this U).2.2.2.2.2 hstep]; exact hinv
  | release this =>
    simp only [step, oop_ptr.release, oop_ptr.get] at hstep
    cases ht : s.handles this with
    | none => simp [ht, Outcome.bind, Outcome.dropValue] at hstep
    | some t =>
      simp only [ht, Outcome.bind, Outcome.dropValue, Outcome.ok.injEq] at hstep
      subst hstep
      exact InvExcept.setResource (hinv.except this) nullptr (Or.inl rfl)
  | release_as this U =>
    simp only [step, oop_ptr.release_as] at hstep
    obtain ⟨⟨p, s1⟩, hcall, hfin⟩ := Outcome.bind_eq_ok _ _ _ hstep
    simp only [Outcome.ok.injEq] at hfin
    subst hfin
    obtain ⟨⟨p2, s2⟩, hcall2, hfin2⟩ := Outcome.bind_eq_ok _ _ _ hcall
    simp only [Outcome.ok.injEq, Prod.mk.injEq] at hfin2
    rw [← hfin2.2, get_as_state env s s2 this U p2 hcall2]
    exact InvExcept.setResource (hinv.except this) nullptr (Or.inl rfl)
  | dtor this =>
    simp only [step, oop_ptr.dtor] at hstep
    cases ht : s.handles this with
    | none => simp [ht] at hstep
    | some t =>
      simp only [ht] at hstep
      obtain ⟨s1, hdel, hfin⟩ := Outcome.bind_eq_ok _ _ _ hstep
      simp only [Outcome.ok.injEq] at hfin
      subst hfin
      by_cases hn : t.resource = nullptr
      · simp only [hn, ne_eq, not_true_eq_false, if_false, Outcome.ok.injEq] at hdel
        subst hdel
        exact (hinv.except this).dropHandle
      · simp only [ne_eq, hn, not_false_eq_true, if_true] at hdel
        exact (hinv.delete_resource this t ht hdel).dropHandle
  | copy_obj dst obj => exact hinv.clone_into hcap dst obj hstep
  | copy_ptr dst ptr => exact hinv.clone_into hcap dst ptr hstep
  | move dst ptr =>
    simp only [step, Outcome.ok.injEq] at hstep
    subst hstep
    exact hinv.transfer dst ptr htr

/-- A state in which every handle is empty satisfies the ownership invariant. -/
theorem AllEmpty.inv {s : State} (h : AllEmpty s) : Inv s :=
  ⟨fun h1 _ t1 _ _ e1 _ _ => h h1 t1 e1, fun k t e hn => absurd (h k t e) hn⟩

/-- The ownership invariant holds after every completed run whose transfer
constructions receive unowned pointers. -/
theorem run_preserves_Inv (env : Env) (hcap : CloneCapability env) (ops : List Op) :
    ∀ s s', Inv s → TransfersOk env s ops → run env s ops = .ok s' → Inv s' := by
  induction ops with
  | nil =>
    intro s s' hinv _ hrun
    simp only [run, Outcome.ok.injEq] at hrun
    subst hrun
    exact hinv
  | cons op ops ih =>
    intro s s' hinv htr hrun
    obtain ⟨s1, hstep, hrest⟩ := Outcome.bind_eq_ok _ _ _ hrun
    exact ih s1 s' (step_preserves_Inv env hcap s s1 op hinv htr.1 hstep) (htr.2 s1 hstep) hrest

/-- C4 (as stated, refuted): starting from a state without any handle,
transfer-constructing handle `1` from the address `5` of a live object,
reading it back with `get()` and transfer-constructing handle `2` from the same
address completes, and the two distinct handles then hold the same non-null
resource. -/
theorem transfer_twice_shares :
    AllEmpty startState ∧
    ∃ s, run demoEnv startState [Op.ctor_ptr 1 5, Op.get 1, Op.ctor_ptr 2 5] = .ok s ∧
      oop_ptr.get s 1 = .ok (5, s) ∧ oop_ptr.get s 2 = .ok (5, s) ∧ ¬ Exclusive s := by
  refine ⟨fun h t e => by simp [startState] at e,
    (startState.setResource 1 5).setResource 2 5, rfl, rfl, rfl, ?_⟩
  intro hex
  have h := hex 1 2 ⟨5⟩ ⟨5⟩ (by decide) rfl rfl rfl
  exact absurd h (by decide)

/-- C4 (amended): let the clone function satisfy the Clone Capability and
start from a state in which every handle is empty.  After every sequence of
public operations that all complete, in which each raw pointer given to the
transfer constructor or to `move(ptr)` is null or points to a live object held
by no handle, no two distinct handles hold the same non-null resource. -/
theorem exclusive_ownership (env : Env) (hcap : CloneCapability env) (s0 s : State)
    (ops : List Op) (h0 : AllEmpty s0) (htr : TransfersOk env s0 ops)
    (hrun : run env s0 ops = .ok s) : Exclusive s :=
  (run_preserves_Inv env hcap ops s0 s h0.inv htr hrun).1

/-- Instance of the amended C4: a transfer construction, a copy construction,
a move assignment, a release and two destructions, all completing. -/
theorem exclusive_ownership_witness :
    ∃ s, run demoEnv startState
        [Op.ctor_ptr 1 5, Op.ctor_copy 2 1, Op.assign_move 1 2, Op.release 2, Op.dtor 2,
          Op.ctor_obj 3 6] = .ok s ∧
      Exclusive s := by
  refine ⟨_, rfl, exclusive_ownership demoEnv demoEnv_capability startState _
    [Op.ctor_ptr 1 5, Op.ctor_copy 2 1, Op.assign_move 1 2, Op.release 2, Op.dtor 2,
      Op.ctor_obj 3 6]
    (fun h t e => by simp [startState] at e) ?_ rfl⟩
  refine ⟨Or.inr ⟨⟨⟨2, [7]⟩, rfl⟩, fun h t e => by simp [startState] at e⟩, fun _ _ => ?_⟩
  exact ⟨trivial, fun _ _ => ⟨trivial, fun _ _ => ⟨trivial, fun _ _ => ⟨trivial, fun _ _ =>
    ⟨trivial, fun _ _ => trivial⟩⟩⟩⟩⟩

/-! ## Copying from an empty source -/

/-- C11 (as stated, refuted): handle `3` of `demoState` is empty.  Copy
construction from it and copy assignment of it to handle `1` are undefined
(`oop_ptr_get_copy` is called through the null resource); neither ends in a
propagated error. -/
theorem copy_from_empty_no_error :
    demoState.handles 3 = some ⟨nullptr⟩ ∧
    oop_ptr.ctor_copy demoEnv demoState 4 3 = .ub ∧
    oop_ptr.assign_copy demoEnv demoState 1 3 = .ub ∧
    (¬ ∃ s', oop_ptr.ctor_copy demoEnv demoState 4 3 = .bad_alloc s') ∧
    (¬ ∃ s', oop_ptr.assign_copy demoEnv demoState 1 3 = .bad_alloc s') := by
  have h1 : oop_ptr.ctor_copy demoEnv demoState 4 3 = .ub := rfl
  have h2 : oop_ptr.assign_copy demoEnv demoState 1 3 = .ub := rfl
  refine ⟨rfl, h1, h2, ?_, ?_⟩
  · rintro ⟨s', hs⟩
    rw [h1] at hs
    exact Outcome.noConfusion hs
  · rintro ⟨s', hs⟩
    rw [h2] at hs
    exact Outcome.noConfusion hs

/-- C11 (amended): for every empty handle `e`, copy construction from `e`
and copy assignment of `e` to a distinct handle have undefined behaviour: no
check is made, no error is raised, and neither completes with a resulting
handle. -/
theorem copy_from_empty_undefined (env : Env) (s : State) (this e : Nat)
    (he : s.handles e = some ⟨nullptr⟩) (hne : this ≠ e) :
    oop_ptr.ctor_copy env s this e = .ub ∧ oop_ptr.assign_copy env s this e = .ub := by
  constructor
  · simp [oop_ptr.ctor_copy, he, call_get_copy, Outcome.bind]
  · unfold oop_ptr.assign_copy
    simp only [ne_eq, hne, not_false_eq_true, if_true]
    cases ht : s.handles this with
    | none => rfl
    | some t =>
      simp only []
      cases hd : delete_expr s t.resource with
      | ub => rfl
      | bad_alloc s1 =>
        unfold delete_expr at hd
        by_cases hp : t.resource = nullptr
        · simp [hp] at hd
        · cases ho : s.heap t.resource <;> simp [hp, ho] at hd
      | ok s1 =>
        have hh := (delete_expr_inv s s1 t.resource hd).1
        simp [Outcome.bind, hh, he, call_get_copy]

/-- Instance of the amended C11 on `demoState`, whose handle `3` is empty. -/
theorem copy_from_empty_undefined_witness :
    oop_ptr.ctor_copy demoEnv demoState 1 3 = .ub ∧
      oop_ptr.assign_copy demoEnv demoState 1 3 = .ub :=
  copy_from_empty_undefined demoEnv demoState 1 3 rfl (by decide)

/-! ## Postconditions of the assignment operators -/

/-- C14: a handle constructed at `h` by transfer from the live object `x`
and destroyed right away: the destructor completes, the destruction log gains
exactly the entry `x`, `x` is no longer live and no other object changes.
The destructor of an empty handle completes, destroys nothing and leaves the
free store as it is. -/
theorem destruction_exactly_once (s : State) (h : Nat) :
    (∀ x ox, x ≠ nullptr → s.heap x = some ox →
      ∃ s', oop_ptr.dtor (oop_ptr.ctor_ptr s h x) h = .ok s' ∧
        s'.destroyed = x :: s.destroyed ∧ (x :: s.destroyed).count x = s.destroyed.count x + 1 ∧
        s'.heap = s.heap.set x none ∧ s'.heap x = none) ∧
    (s.handles h = some ⟨nullptr⟩ →
      ∃ s', oop_ptr.dtor s h = .ok s' ∧ s'.destroyed = s.destroyed ∧ s'.heap = s.heap) := by
  constructor
  · intro x ox hx hox
    refine ⟨({ (oop_ptr.ctor_ptr s h x) with
        heap := s.heap.set x none, destroyed := x :: s.destroyed } : State).dropHandle h,
      ?_, rfl, by simp, rfl, by simp [State.dropHandle]⟩
    simp [oop_ptr.dtor, oop_ptr.ctor_ptr, hx, delete_expr, hox, Outcome.bind]
  · intro he
    exact ⟨s.dropHandle h, by simp [oop_ptr.dtor, he, Outcome.bind], rfl, rfl⟩

/-- Instance of C14: a handle at address `4` takes over the object at `5` of
`startState` and is destroyed; handle `3` of `demoState` is empty. -/
theorem destruction_exactly_once_witness :
    (∃ s', oop_ptr.dtor (oop_ptr.ctor_ptr startState 4 5) 4 = .ok s' ∧
        s'.destroyed = 5 :: startState.destroyed ∧
        (5 :: startState.destroyed).count 5 = startState.destroyed.count 5 + 1 ∧
        s'.heap = startState.heap.set 5 none ∧ s'.heap 5 = none) ∧
    (∃ s', oop_ptr.dtor demoState 3 = .ok s' ∧ s'.destroyed = demoState.destroyed ∧
        s'.heap = demoState.heap) :=
  ⟨(destruction_exactly_once startState 4).1 5 ⟨2, [7]⟩ (by decide) rfl,
   (destruction_exactly_once demoState 3).2 rfl⟩

/-! ## The emptiness test and the factories -/

/-- C15: on every handle the boolean test and `get()` complete without
changing the state, and the test is true exactly when `get()` is non-null.  A
default-constructed handle and the constant `null` test false and return null
from `get()`. -/
theorem emptiness_test (s : State) (h : Nat) :
    (∀ t, s.handles h = some t →
      ∃ b p, oop_ptr.operator_bool s h = .ok (b, s) ∧ oop_ptr.get s h = .ok (p, s) ∧
        (b = true ↔ p ≠ nullptr)) ∧
    (oop_ptr.operator_bool (oop_ptr.ctor_default s h) h
        = .ok (false, oop_ptr.ctor_default s h) ∧
      oop_ptr.get (oop_ptr.ctor_default s h) h = .ok (nullptr, oop_ptr.ctor_default s h)) ∧
    (oop_ptr.operator_bool (oop_ptr.null s h) h = .ok (false, oop_ptr.null s h) ∧
      oop_ptr.get (oop_ptr.null s h) h = .ok (nullptr, oop_ptr.null s h)) := by
  refine ⟨?_, ⟨?_, ?_⟩, ⟨?_, ?_⟩⟩
  · intro t ht
    refine ⟨decide (t.resource ≠ nullptr), t.resource, ?_, ?_, ?_⟩
    · simp [oop_ptr.operator_bool, ht]
    · simp [oop_ptr.get, ht]
    · simp
  · simp [oop_ptr.operator_bool, oop_ptr.ctor_default]
  · simp [oop_ptr.get, oop_ptr.ctor_default]
  · simp [oop_ptr.operator_bool, oop_ptr.null, oop_ptr.ctor_default]
  · simp [oop_ptr.get, oop_ptr.null, oop_ptr.ctor_default]

/-- Instance of C15: handle `1` of `demoState` is non-empty and tests true. -/
theorem emptiness_test_witness :
    ∃ b p, oop_ptr.operator_bool demoState 1 = .ok (b, demoState) ∧
      oop_ptr.get demoState 1 = .ok (p, demoState) ∧ (b = true ↔ p ≠ nullptr) :=
  (emptiness_test demoState 1).1 ⟨5⟩ rfl

/-- C16: `copy(obj)` and `copy(&obj)` have the outcome of the
clone-from-object constructor `oop_ptr(obj)`, and `move(p)` yields the state
of the transfer constructor `oop_ptr(p)`, in which `get()` returns `p`.  When
`obj` is a live object and the clone call returns under the Clone Capability,
the three copies complete with a handle owning the clone, at an address
different from `obj`, and `obj` is unchanged. -/
theorem factories_agree (env : Env) (s : State) (dst : Nat) :
    (∀ obj, oop_ptr.copy_obj env s dst obj = oop_ptr.ctor_obj env s dst obj ∧
      oop_ptr.copy_ptr env s dst obj = oop_ptr.ctor_obj env s dst obj) ∧
    (∀ p, oop_ptr.move s dst p = oop_ptr.ctor_ptr s dst p ∧
      oop_ptr.get (oop_ptr.move s dst p) dst = .ok (p, oop_ptr.move s dst p)) ∧
    (∀ obj oo, CloneCapability env → obj ≠ nullptr → s.heap obj = some oo →
      (env.get_copy_ptr s.heap obj).isSome = true →
      ∃ s' q oq, oop_ptr.ctor_obj env s dst obj = .ok s' ∧
        oop_ptr.copy_obj env s dst obj = .ok s' ∧ oop_ptr.copy_ptr env s dst obj = .ok s' ∧
        s'.handles dst = some ⟨q⟩ ∧ q ≠ obj ∧ s.heap q = none ∧
        s'.heap q = some oq ∧ oq.rtype = oo.rtype ∧ s'.heap obj = some oo ∧
        ∀ k, k ≠ dst → s'.handles k = s.handles k) := by
  refine ⟨fun obj => ⟨rfl, rfl⟩, fun p => ⟨rfl, ?_⟩, ?_⟩
  · simp [oop_ptr.get, oop_ptr.move, oop_ptr.ctor_ptr]
  · intro obj oo hcap hobj hoo hret
    obtain ⟨⟨q, hp'⟩, hc⟩ := Option.isSome_iff_exists.mp hret
    obtain ⟨_, hqfree, oq, hty, hhp⟩ := hcap s.heap obj oo q hp' hoo hc
    have hqo : q ≠ obj := by
      intro h
      rw [h, hoo] at hqfree
      exact Option.noConfusion hqfree
    have hrun : oop_ptr.ctor_obj env s dst obj =
        .ok (({ s with heap := hp', clones := s.clones + 1 } : State).setResource dst q) := by
      simp [oop_ptr.ctor_obj, call_get_copy_ok env s obj q oo hp' hobj hoo hc, Outcome.bind]
    refine ⟨_, q, oq, hrun, hrun, hrun, by simp, hqo, hqfree, ?_, hty, ?_, ?_⟩
    · simp [hhp]
    · simp only [State.setResource_heap, hhp]
      rw [Heap.set_other _ _ _ _ hqo.symm]
      exact hoo
    · intro k hk
      rw [State.setResource_other _ _ _ _ hk]

/-- Instance of C16: copying the object at `6` of `demoState` into a new
handle at address `4`. -/
theorem factories_agree_witness :
    ∃ s' q oq, oop_ptr.ctor_obj demoEnv demoState 4 6 = .ok s' ∧
      oop_ptr.copy_obj demoEnv demoState 4 6 = .ok s' ∧
      oop_ptr.copy_ptr demoEnv demoState 4 6 = .ok s' ∧
      s'.handles 4 = some ⟨q⟩ ∧ q ≠ 6 ∧ demoState.heap q = none ∧
      s'.heap q = some oq ∧ oq.rtype = (⟨1, [3]⟩ : Obj).rtype ∧
      s'.heap 6 = some ⟨1, [3]⟩ ∧ ∀ k, k ≠ 4 → s'.handles k = demoState.handles k :=
  (factories_agree demoEnv demoState 4).2.2 6 ⟨1, [3]⟩ demoEnv_capability (by decide) rfl
    (by decide)

/-! ## Moved-from handles -/

/-- The destructor of an empty handle only ends the lifetime of the handle. -/
theorem dtor_empty (s : State) (h : Nat) (he : s.handles h = some ⟨nullptr⟩) :
    oop_ptr.dtor s h = .ok (s.dropHandle h) := by
  simp [oop_ptr.dtor, he, Outcome.bind]

/-- The destructor of a handle owning the live object `x` destroys `x`. -/
theorem dtor_owning (s : State) (h : Nat) (x : Ptr) (ox : Obj)
    (hh : s.handles h = some ⟨x⟩) (hx : x ≠ nullptr) (hox : s.heap x = some ox) :
    oop_ptr.dtor s h =
      .ok (({ s with heap := s.heap.set x none, destroyed := x :: s.destroyed } :
        State).dropHandle h) := by
  simp [oop_ptr.dtor, hh, hx, delete_expr, hox, Outcome.bind]

/-- Ending the lifetime of one handle leaves the others alone. -/
theorem State.dropHandle_other (s : State) (h k : Nat) (hne : k ≠ h) :
    (s.dropHandle h).handles k = s.handles k := by
  simp [State.dropHandle, hne]

/-- State reached by moving the handle `h1`, owning the live object `x`, into
a distinct handle `h2` that does not hold `x`: `h1` is empty, `h2` holds `x`,
and `x` is live and unchanged. -/
theorem after_move_facts (s s1 : State) (h1 h2 : Nat) (x : Ptr) (ox : Obj)
    (hne : h2 ≠ h1) (hown : s.handles h1 = some ⟨x⟩) (hox : s.heap x = some ox)
    (hfree : ∀ t2, s.handles h2 = some t2 → t2.resource ≠ x)
    (hmove : oop_ptr.ctor_move s h2 h1 = .ok s1 ∨ oop_ptr.assign_move s h2 h1 = .ok s1) :
    s1.handles h1 = some ⟨nullptr⟩ ∧ s1.handles h2 = some ⟨x⟩ ∧ s1.heap x = some ox := by
  rcases hmove with hm | hm
  · simp only [oop_ptr.ctor_move, hown, Outcome.ok.injEq] at hm
    subst hm
    refine ⟨by simp, ?_, hox⟩
    rw [State.setResource_other _ _ _ _ hne, State.setResource_same]
  · unfold oop_ptr.assign_move at hm
    simp only [ne_eq, hne, not_false_eq_true, if_true] at hm
    cases ht : s.handles h2 with
    | none => simp [ht] at hm
    | some t2 =>
      simp only [ht] at hm
      obtain ⟨s0, hdel, hrest⟩ := Outcome.bind_eq_ok _ _ _ hm
      obtain ⟨hhd, _, hframe, _⟩ := delete_expr_inv s s0 t2.resource hdel
      have hown0 : s0.handles h1 = some ⟨x⟩ := by rw [hhd]; exact hown
      simp only [hown0, Outcome.ok.injEq] at hrest
      subst hrest
      refine ⟨by simp, ?_, ?_⟩
      · rw [State.setResource_other _ _ _ _ hne, State.setResource_same]
      · show s0.heap x = some ox
        rw [hframe x (fun h => hfree t2 ht h.symm)]
        exact hox

/-- C17: let `h1` own the live object `x` and be moved, by move construction
or move assignment, into a distinct handle `h2` that does not hold `x`; call
`s1` the state reached.  Then in `s1`: `h1` is empty and `h2` holds `x`, live;
destroying `h1` completes, destroys nothing and leaves `h2` and every object
as they are; move-assigning a third handle to `h1` completes and leaves the
free store and `h2` as they are; copy-assigning to `h1` a handle with a live
source, the clone call returning under the Clone Capability, completes and
leaves `x` live and `h2` holding `x`; destroying `h1` then `h2`, or `h2` then
`h1`, completes and adds exactly the entry `x` to the destruction log. -/
theorem moved_from_safe (env : Env) (s s1 : State) (h1 h2 : Nat) (x : Ptr) (ox : Obj)
    (hne : h2 ≠ h1) (hown : s.handles h1 = some ⟨x⟩) (hx : x ≠ nullptr)
    (hox : s.heap x = some ox)
    (hfree : ∀ t2, s.handles h2 = some t2 → t2.resource ≠ x)
    (hmove : oop_ptr.ctor_move s h2 h1 = .ok s1 ∨ oop_ptr.assign_move s h2 h1 = .ok s1) :
    (s1.handles h1 = some ⟨nullptr⟩ ∧ s1.handles h2 = some ⟨x⟩ ∧ s1.heap x = some ox) ∧
    (∃ s2, oop_ptr.dtor s1 h1 = .ok s2 ∧ s2.heap = s1.heap ∧
      s2.destroyed = s1.destroyed ∧ s2.handles h2 = some ⟨x⟩) ∧
    (∀ h3 t3, h3 ≠ h1 → h3 ≠ h2 → s1.handles h3 = some t3 →
      ∃ s2, oop_ptr.assign_move s1 h1 h3 = .ok s2 ∧ s2.heap = s1.heap ∧
        s2.destroyed = s1.destroyed ∧ s2.handles h2 = some ⟨x⟩ ∧
        s2.handles h1 = some t3) ∧
    (∀ h3 z oz, CloneCapability env → h3 ≠ h1 → s1.handles h3 = some ⟨z⟩ →
      z ≠ nullptr → s1.heap z = some oz → (env.get_copy_ptr s1.heap z).isSome = true →
      ∃ s2, oop_ptr.assign_copy env s1 h1 h3 = .ok s2 ∧ s2.heap x = some ox ∧
        s2.destroyed = s1.destroyed ∧ s2.handles h2 = some ⟨x⟩) ∧
    (∃ s2 s3, oop_ptr.dtor s1 h1 = .ok s2 ∧ oop_ptr.dtor s2 h2 = .ok s3 ∧
      s3.destroyed = x :: s1.destroyed ∧ s3.heap = s1.heap.set x none) ∧
    (∃ s2 s3, oop_ptr.dtor s1 h2 = .ok s2 ∧ oop_ptr.dtor s2 h1 = .ok s3 ∧
      s3.destroyed = x :: s1.destroyed ∧ s3.heap = s1.heap.set x none) := by
  obtain ⟨hf1, hf2, hfx⟩ := after_move_facts s s1 h1 h2 x ox hne hown hox hfree hmove
  refine ⟨⟨hf1, hf2, hfx⟩, ?_, ?_, ?_, ?_, ?_⟩
  · refine ⟨s1.dropHandle h1, dtor_empty s1 h1 hf1, rfl, rfl, ?_⟩
    rw [State.dropHandle_other _ _ _ hne]
    exact hf2
  · intro h3 t3 h31 h32 ht3
    refine ⟨(s1.setResource h1 t3.resource).setResource h3 nullptr, ?_, rfl, rfl, ?_, ?_⟩
    · simp [oop_ptr.assign_move, h31.symm, hf1, delete_expr, Outcome.bind, ht3]
    · rw [State.setResource_other _ _ _ _ (Ne.symm h32),
        State.setResource_other _ _ _ _ hne]
      exact hf2
    · rw [State.setResource_other _ _ _ _ (Ne.symm h31), State.setResource_same]
  · intro h3 z oz hcap h31 ht3 hz hoz hret
    obtain ⟨⟨q, hp'⟩, hc⟩ := Option.isSome_iff_exists.mp hret
    obtain ⟨_, hqfree, oq, _, hhp⟩ := hcap s1.heap z oz q hp' hoz hc
    have hqx : q ≠ x := by
      intro h
      rw [h, hfx] at hqfree
      exact Option.noConfusion hqfree
    refine ⟨({ s1 with heap := hp', clones := s1.clones + 1 } : State).setResource h1 q,
      ?_, ?_, rfl, ?_⟩
    · simp [oop_ptr.assign_copy, h31.symm, hf1, delete_expr, Outcome.bind, ht3,
        call_get_copy_ok env s1 z q oz hp' hz hoz hc]
    · simp only [State.setResource_heap, hhp]
      rw [Heap.set_other _ _ _ _ hqx.symm]
      exact hfx
    · rw [State.setResource_other _ _ _ _ hne]
      exact hf2
  · have hf2' : (s1.dropHandle h1).handles h2 = some ⟨x⟩ := by
      rw [State.dropHandle_other _ _ _ hne]
      exact hf2
    exact ⟨s1.dropHandle h1, _, dtor_empty s1 h1 hf1,
      dtor_owning (s1.dropHandle h1) h2 x ox hf2' hx hfx, rfl, rfl⟩
  · have hf1' : (({ s1 with heap := s1.heap.set x none, destroyed := x :: s1.destroyed } :
        State).dropHandle h2).handles h1 = some ⟨nullptr⟩ := by
      rw [State.dropHandle_other _ _ _ (Ne.symm hne)]
      exact hf1
    exact ⟨_, _, dtor_owning s1 h2 x ox hf2 hx hfx, dtor_empty _ h1 hf1', rfl, rfl⟩

/-- Instance of C17: handle `1` of `demoState` (owning the object at `5`)
move-constructed into a new handle at address `4`; then the two handles are
destroyed in either order, or handle `1` is assigned a copy of handle `2`. -/
theorem moved_from_safe_witness :
    (∃ s2 s3, oop_ptr.dtor demoMoved 1 = .ok s2 ∧ oop_ptr.dtor s2 4 = .ok s3 ∧
      s3.destroyed = 5 :: demoMoved.destroyed ∧ s3.heap = demoMoved.heap.set 5 none) ∧
    (∃ s2 s3, oop_ptr.dtor demoMoved 4 = .ok s2 ∧ oop_ptr.dtor s2 1 = .ok s3 ∧
      s3.destroyed = 5 :: demoMoved.destroyed ∧ s3.heap = demoMoved.heap.set 5 none) ∧
    (∃ s2, oop_ptr.assign_copy demoEnv demoMoved 1 2 = .ok s2 ∧
      s2.heap 5 = some ⟨2, [7]⟩ ∧ s2.destroyed = demoMoved.destroyed ∧
      s2.handles 4 = some ⟨5⟩) :=
  ⟨(moved_from_safe demoEnv demoState demoMoved 1 4 5 ⟨2, [7]⟩ (by decide) rfl (by decide)
      rfl (fun t2 h => by simp [demoState] at h) (Or.inl rfl)).2.2.2.2.1,
   (moved_from_safe demoEnv demoState demoMoved 1 4 5 ⟨2, [7]⟩ (by decide) rfl (by decide)
      rfl (fun t2 h => by simp [demoState] at h) (Or.inl rfl)).2.2.2.2.2,
   (moved_from_safe demoEnv demoState demoMoved 1 4 5 ⟨2, [7]⟩ (by decide) rfl (by decide)
      rfl (fun t2 h => by simp [demoState] at h) (Or.inl rfl)).2.2.2.1 2 6 ⟨1, [3]⟩
      demoEnv_capability (by decide) rfl (by decide) rfl (by decide)⟩

/-! ## Observers -/

/-- C18: on every handle the boolean test, `get()` and `operator->` complete
and return the state they were called in, `operator->` returning the pointer
that `get()` returns; so do `get<U>()` and `gettable<U>()` when the resource
is null or points to a live object, and whenever they complete at all the
state they return is the one they were called in. -/
theorem observers_pure (env : Env) (s : State) (h U : Nat) (t : oop_ptr)
    (ht : s.handles h = some t) :
    (∃ b, oop_ptr.operator_bool s h = .ok (b, s)) ∧
    (∃ p, oop_ptr.get s h = .ok (p, s) ∧ oop_ptr.operator_arrow s h = .ok (p, s) ∧
      p = t.resource) ∧
    ((t.resource = nullptr ∨ ∃ o, s.heap t.resource = some o) →
      ∃ p b, oop_ptr.get_as env s h U = .ok (p, s) ∧
        oop_ptr.gettable env s h U = .ok (b, s)) ∧
    (∀ p s', oop_ptr.get_as env s h U = .ok (p, s') → s' = s) ∧
    (∀ b s', oop_ptr.gettable env s h U = .ok (b, s') → s' = s) := by
  refine ⟨⟨decide (t.resource ≠ nullptr), ?_⟩, ⟨t.resource, ?_, ?_, rfl⟩, ?_, ?_, ?_⟩
  · simp [oop_ptr.operator_bool, ht]
  · simp [oop_ptr.get, ht]
  · simp [oop_ptr.operator_arrow, ht]
  · intro hlive
    have key := get_as_eq env s h U t ht hlive
    obtain ⟨p, hp⟩ : ∃ p, oop_ptr.get_as env s h U = .ok (p, s) := ⟨_, key⟩
    refine ⟨p, decide (p ≠ nullptr), hp, ?_⟩
    rw [oop_ptr.gettable, hp]
    rfl
  · intro p s' hq
    exact get_as_state env s s' h U p hq
  · intro b s' hq
    obtain ⟨⟨p, s2⟩, hcall, hfin⟩ := Outcome.bind_eq_ok _ _ _ hq
    simp only [Outcome.ok.injEq, Prod.mk.injEq] at hfin
    rw [← hfin.2]
    exact get_as_state env s s2 h U p hcall

/-- Instance of C18 on handle `1` of `demoState`, narrowing to class `1`. -/
theorem observers_pure_witness :
    (∃ b, oop_ptr.operator_bool demoState 1 = .ok (b, demoState)) ∧
    (∃ p, oop_ptr.get demoState 1 = .ok (p, demoState) ∧
      oop_ptr.operator_arrow demoState 1 = .ok (p, demoState) ∧
      p = (⟨5⟩ : oop_ptr).resource) ∧
    (∃ p b, oop_ptr.get_as demoEnv demoState 1 1 = .ok (p, demoState) ∧
        oop_ptr.gettable demoEnv demoState 1 1 = .ok (b, demoState)) :=
  ⟨(observers_pure demoEnv demoState 1 1 ⟨5⟩ rfl).1,
   (observers_pure demoEnv demoState 1 1 ⟨5⟩ rfl).2.1,
   (observers_pure demoEnv demoState 1 1 ⟨5⟩ rfl).2.2.1 (Or.inr ⟨⟨2, [7]⟩, rfl⟩)⟩

/-! ## The ownership invariant, operation by operation -/

end OopPtr
